import Mathlib

set_option linter.unusedTactic false
set_option linter.unreachableTactic false
set_option linter.unusedVariables false

/-!
# SyncShm: producer / consumer handshake over a named shared-memory segment

A small-step model of `src/main.cpp`.  `main` starts `producer()` and
`consumer()` as two threads; every statement of either function that touches
the OS namespace, the mapped `SharedBuffer` or the console is one atomic step
of the model (`strcpy` is one step per byte), and a run is an arbitrary
interleaving of such steps, memory being sequentially consistent.

The operating system is modelled by the name "SyncShm" (bound or not) and by
the segment objects the name may be bound to: the one that may be left over
from an earlier run (`stale`) and the one `producer()` creates (`fresh`).
`remove`, `create_only` on an unbound name and `truncate` succeed; whether a
mapping succeeds and by how much a `sleep_for` overshoots are chosen by the
environment; a wakeup from `wait` may come at any time.
`sizeof(SharedBuffer)` depends on the boost types and is a parameter.

Time is counted on the clock of the consumer: the sum of the durations of its
sleeps of line 68, each at least 500 ms; the other statements are taken to
cost no time.

Line 58 has no guard: the consumer takes the mutex of whatever memory it has
mapped.  A freshly sized segment is zero-filled and reads as an unlocked
mutex with `has_data` false, so a lock taken before the placement new of line
28 returns; the placement new then initialises the mutex again.  Such a run
goes on like any other; `earlyAccess` only records that it happened.
-/

namespace SyncShm

/-- The two roles started by `main`. -/
inductive Role where
  | producer
  | consumer
  deriving DecidableEq, Repr

/-- Capacity of `SharedBuffer::message` (line 16). -/
def MESSAGE_SIZE : Nat := 256

/-- The bytes of "Hello from producer!" (line 35), without the terminator. -/
def payload : List Nat :=
  [72, 101, 108, 108, 111, 32, 102, 114, 111, 109, 32,
   112, 114, 111, 100, 117, 99, 101, 114, 33]

/-- The string literal of line 35 as it lies in memory: payload and NUL. -/
def literal : List Nat := payload ++ [0]

/-- The struct of lines 12-19.  The mutex is its owner when locked, the
condition is the list of roles blocked in `wait`. -/
structure SharedBuffer where
  mutex : Option Role
  data_ready : List Role
  has_data : Bool
  message : List Nat
  deriving DecidableEq, Repr

/-- Zero-filled memory read as a `SharedBuffer`. -/
def zeroed : SharedBuffer :=
  { mutex := none, data_ready := [], has_data := false,
    message := List.replicate MESSAGE_SIZE 0 }

/-- The constructor of line 18, run in place by the placement new of line 28:
the mutex and the condition are default-constructed, `has_data` is set to
false, `message` is left as it is. -/
def SharedBuffer.construct (b : SharedBuffer) : SharedBuffer :=
  { b with mutex := none, data_ready := [], has_data := false }

/-- A shared memory object: its size in bytes, whether a `SharedBuffer` has
been constructed in it, and the contents of its memory. -/
structure Segment where
  size : Nat
  constructed : Bool
  buf : SharedBuffer
  deriving DecidableEq, Repr

/-- A segment right after `create_only`: no bytes yet; `truncate` extends it
with zero bytes. -/
def Segment.created : Segment :=
  { size := 0, constructed := false, buf := zeroed }

/-- The segment objects a role can hold a handle to. -/
inductive SegRef where
  | stale
  | fresh
  deriving DecidableEq, Repr

/-- The lines written to `std::cout`. -/
inductive Line where
  | producerPreparing
  | producerDataReady
  | producerFinishing
  | consumerWaitingShm
  | consumerConnected
  | consumerWaitingData
  | consumerReceived
  | consumerException
  | consumerFinishing
  deriving DecidableEq, Repr

/-- Program points of `producer()` (lines 21-42); `thrown` is an exception
that left the function. -/
inductive PPc where
  | remove
  | create
  | truncate
  | map
  | construct
  | prepare
  | lock
  | strcpy
  | setFlag
  | notify
  | unlock
  | finish
  | done
  | thrown
  deriving DecidableEq, Repr

/-- Program points of `consumer()` (lines 44-74); `waiting` is blocked inside
`data_ready.wait` with the mutex released, `relock` is woken up and taking the
mutex again, `thrown` is an exception that left the function. -/
inductive CPc where
  | start
  | loopTest
  | openShm
  | connect
  | map
  | lock
  | announce
  | check
  | waiting
  | relock
  | read
  | unlock
  | handler
  | finish
  | remove
  | done
  | thrown
  deriving DecidableEq, Repr

/-- The exceptions a statement can raise; the handler of line 66 is for
`bip::interprocess_exception` only. -/
inductive Exn where
  | interprocess_exception
  | other
  deriving DecidableEq, Repr

/-- Where control goes when the try block of lines 49-65 raises `e`. -/
def catchClause : Exn → CPc
  | .interprocess_exception => .handler
  | .other => .thrown

/-- Locals of `producer()`: the program point and the index of the next byte
`strcpy` copies. -/
structure Producer where
  pc : PPc
  i : Nat
  deriving DecidableEq, Repr

/-- Locals of `consumer()` and counters of what it has done so far: open
attempts, attempts that found no segment, sleeps of line 68, the time slept
in ms, the part of it by which the sleeps lasted longer than 500 ms, the time
of the open that succeeded, whether mapping failed, calls of
`data_ready.wait`, the value of `has_data` when line 58 took the mutex, and
the text line 64 streamed. -/
structure Consumer where
  pc : CPc
  connected : Bool
  shm : Option SegRef
  opens : Nat
  notFound : Nat
  sleeps : Nat
  clock : Nat
  overslept : Nat
  openedAt : Option Nat
  mapFailed : Bool
  waits : Nat
  flagAtLock : Option Bool
  received : Option (List Nat)
  deriving DecidableEq, Repr

/-- The whole system: the binding of the name "SyncShm", the segment objects,
both roles, how often the constructor of line 18 has run, whether the lock of
line 58 has been taken on a segment not yet sized or constructed, the
console, and the time on the sleep clock of the consumer at which line 24
created the segment. -/
structure State where
  name : Option SegRef
  stale : Segment
  fresh : Segment
  prod : Producer
  cons : Consumer
  constructions : Nat
  earlyAccess : Bool
  out : List Line
  createdAt : Option Nat
  deriving DecidableEq, Repr

/-- Both threads at their first statement; `ns` is what "SyncShm" names when
`main` starts: nothing, or a segment left by an earlier run. -/
def init (ns : Option Segment) : State :=
  { name := ns.map (fun _ => SegRef.stale)
    stale := ns.getD Segment.created
    fresh := Segment.created
    prod := { pc := .remove, i := 0 }
    cons := { pc := .start, connected := false, shm := none, opens := 0,
              notFound := 0, sleeps := 0, clock := 0, overslept := 0, openedAt := none,
              mapFailed := false, waits := 0, flagAtLock := none,
              received := none }
    constructions := 0
    earlyAccess := false
    out := []
    createdAt := none }

/-- The segment object behind a handle. -/
def State.seg (s : State) : SegRef → Segment
  | .stale => s.stale
  | .fresh => s.fresh

/-- Replace the memory of the segment behind a handle. -/
def State.setBuf (s : State) (r : SegRef) (b : SharedBuffer) : State :=
  match r with
  | .stale => { s with stale := { s.stale with buf := b } }
  | .fresh => { s with fresh := { s.fresh with buf := b } }

/-- What `operator<<` prints for a `char` array: the bytes before the first
NUL. -/
def cstr (m : List Nat) : List Nat := m.takeWhile (fun c => c != 0)

/-- The effect of `notify_one` on the condition of the fresh segment: the
first blocked role, if any, is woken (only the consumer ever waits). -/
def notify_one (s : State) : State :=
  match s.fresh.buf.data_ready with
  | [] => s
  | w :: rest =>
      let s1 := { s with fresh := { s.fresh with buf := { s.fresh.buf with data_ready := rest } } }
      if w = Role.consumer then { s1 with cons := { s1.cons with pc := .relock } } else s1

/-- One statement of `producer()`.  `ok` is the outcome of the mapping of
line 26, the only call whose failure the environment decides; a statement
that cannot proceed (a locked mutex, a finished function) gives `none`. -/
def producer (sizeofSharedBuffer : Nat) (ok : Bool) (s : State) : Option State :=
  match s.prod.pc with
  | .remove =>
      -- line 22: remove never throws, whether or not the name is bound
      some { s with name := none, prod := { s.prod with pc := .create } }
  | .create =>
      -- line 24: create_only throws when the name is bound
      match s.name with
      | some _ => some { s with prod := { s.prod with pc := .thrown } }
      | none =>
          -- (the time at which the segment appears is noted for C6)
          some { s with name := some .fresh, fresh := Segment.created,
                        createdAt := some s.cons.clock,
                        prod := { s.prod with pc := .truncate } }
  | .truncate =>
      -- line 25
      some { s with fresh := { s.fresh with size := sizeofSharedBuffer },
                    prod := { s.prod with pc := .map } }
  | .map =>
      -- line 26: a failure leaves producer() as an exception
      if ok then some { s with prod := { s.prod with pc := .construct } }
      else some { s with prod := { s.prod with pc := .thrown } }
  | .construct =>
      -- line 28
      some { s with fresh := { s.fresh with constructed := true,
                                            buf := s.fresh.buf.construct },
                    constructions := s.constructions + 1,
                    prod := { s.prod with pc := .prepare } }
  | .prepare =>
      -- lines 30-31
      some { s with out := s.out ++ [.producerPreparing],
                    prod := { s.prod with pc := .lock } }
  | .lock =>
      -- line 34: blocks while the mutex is held
      if s.fresh.buf.mutex = none then
        some { s with fresh := { s.fresh with buf := { s.fresh.buf with mutex := some .producer } },
                      prod := { pc := .strcpy, i := 0 } }
      else none
  | .strcpy =>
      -- line 35, one byte per step: copy, stop after the NUL
      let c := literal.getD s.prod.i 0
      let m := s.fresh.buf.message.set s.prod.i c
      some { s with fresh := { s.fresh with buf := { s.fresh.buf with message := m } },
                    prod := if c = 0 then { s.prod with pc := .setFlag }
                            else { s.prod with i := s.prod.i + 1 } }
  | .setFlag =>
      -- line 36
      some { s with fresh := { s.fresh with buf := { s.fresh.buf with has_data := true } },
                    prod := { s.prod with pc := .notify } }
  | .notify =>
      -- lines 37-38
      let s1 := notify_one s
      some { s1 with out := s1.out ++ [.producerDataReady],
                     prod := { s1.prod with pc := .unlock } }
  | .unlock =>
      -- line 39: the scoped_lock goes out of scope
      some { s with fresh := { s.fresh with buf := { s.fresh.buf with mutex := none } },
                    prod := { s.prod with pc := .finish } }
  | .finish =>
      -- line 41
      some { s with out := s.out ++ [.producerFinishing],
                    prod := { s.prod with pc := .done } }
  | .done => none
  | .thrown => none

/-- One statement of `consumer()`.  `ok` is the outcome of the mapping of
line 54, `late` the time in ms by which the sleep of line 68 lasts longer than
the 500 ms asked for (`sleep_for` blocks for at least that long).  The lock
of line 58 is taken on the mapped memory as it is, constructed or not. -/
def consumer (sizeofSharedBuffer : Nat) (ok : Bool) (late : Nat) (s : State) : Option State :=
  match s.cons.pc with
  | .start =>
      -- lines 45, 47
      some { s with out := s.out ++ [.consumerWaitingShm],
                    cons := { s.cons with connected := false, pc := .loopTest } }
  | .loopTest =>
      -- line 48
      if s.cons.connected then some { s with cons := { s.cons with pc := .finish } }
      else some { s with cons := { s.cons with pc := .openShm } }
  | .openShm =>
      -- line 50: open_only throws when the name is not bound
      match s.name with
      | none =>
          some { s with cons := { s.cons with opens := s.cons.opens + 1,
                                              notFound := s.cons.notFound + 1,
                                              pc := catchClause .interprocess_exception } }
      | some r =>
          some { s with cons := { s.cons with opens := s.cons.opens + 1,
                                              shm := some r,
                                              openedAt := some s.cons.clock,
                                              pc := .connect } }
  | .connect =>
      -- lines 51-52
      some { s with out := s.out ++ [.consumerConnected],
                    cons := { s.cons with connected := true, pc := .map } }
  | .map =>
      -- lines 54-55: a failure is a bip::interprocess_exception
      if ok then some { s with cons := { s.cons with pc := .lock } }
      else some { s with cons := { s.cons with mapFailed := true,
                                               pc := catchClause .interprocess_exception } }
  | .lock =>
      -- line 58: blocks while the mutex is held
      match s.cons.shm with
      | none => none
      | some r =>
          if (s.seg r).buf.mutex = none then
            let s1 := s.setBuf r { (s.seg r).buf with mutex := some .consumer }
            some { s1 with
              earlyAccess :=
                if (s.seg r).size < sizeofSharedBuffer ∨ (s.seg r).constructed = false
                then true else s.earlyAccess,
              cons := { s1.cons with flagAtLock := some (s.seg r).buf.has_data,
                                     pc := .announce } }
          else none
  | .announce =>
      -- line 59
      some { s with out := s.out ++ [.consumerWaitingData],
                    cons := { s.cons with pc := .check } }
  | .check =>
      -- lines 60-61: test the flag; if it is false call wait, which releases
      -- the mutex and blocks
      match s.cons.shm with
      | none => none
      | some r =>
          if (s.seg r).buf.has_data then
            some { s with cons := { s.cons with pc := .read } }
          else
            let s1 := s.setBuf r { (s.seg r).buf with
                                    mutex := none,
                                    data_ready := (s.seg r).buf.data_ready ++ [.consumer] }
            some { s1 with cons := { s1.cons with waits := s.cons.waits + 1, pc := .waiting } }
  | .waiting =>
      -- line 61: a wakeup with no notification behind it
      match s.cons.shm with
      | none => none
      | some r =>
          let s1 := s.setBuf r { (s.seg r).buf with
                                  data_ready := (s.seg r).buf.data_ready.erase .consumer }
          some { s1 with cons := { s1.cons with pc := .relock } }
  | .relock =>
      -- line 61: wait takes the mutex again before it returns
      match s.cons.shm with
      | none => none
      | some r =>
          if (s.seg r).buf.mutex = none then
            let s1 := s.setBuf r { (s.seg r).buf with mutex := some .consumer }
            some { s1 with cons := { s1.cons with pc := .check } }
          else none
  | .read =>
      -- line 64
      match s.cons.shm with
      | none => none
      | some r =>
          some { s with out := s.out ++ [.consumerReceived],
                        cons := { s.cons with received := some (cstr (s.seg r).buf.message),
                                              pc := .unlock } }
  | .unlock =>
      -- line 65: the scoped_lock goes out of scope; back to line 48
      match s.cons.shm with
      | none => none
      | some r =>
          let s1 := s.setBuf r { (s.seg r).buf with mutex := none }
          some { s1 with cons := { s1.cons with pc := .loopTest } }
  | .handler =>
      -- lines 67-68; back to line 48
      some { s with out := s.out ++ [.consumerException],
                    cons := { s.cons with sleeps := s.cons.sleeps + 1,
                                          clock := s.cons.clock + 500 + late,
                                          overslept := s.cons.overslept + late,
                                          pc := .loopTest } }
  | .finish =>
      -- line 72
      some { s with out := s.out ++ [.consumerFinishing],
                    cons := { s.cons with pc := .remove } }
  | .remove =>
      -- line 73
      some { s with name := none, cons := { s.cons with pc := .done } }
  | .done => none
  | .thrown => none

/-- A scheduling choice: which thread runs its next statement, with the
outcome of the mapping call and the overshoot of the sleep should that be the
statement. -/
inductive Action where
  | producer (ok : Bool)
  | consumer (ok : Bool) (late : Nat)
  deriving DecidableEq, Repr

/-- The role an action belongs to. -/
def Action.role : Action → Role
  | .producer _ => .producer
  | .consumer _ _ => .consumer

/-- One step of the interleaved system. -/
def step (sizeofSharedBuffer : Nat) (s : State) (a : Action) : Option State :=
  match a with
  | .producer ok => producer sizeofSharedBuffer ok s
  | .consumer ok late => consumer sizeofSharedBuffer ok late s

/-- Run a schedule; `none` when it asks for a step that cannot be taken. -/
def run (sizeofSharedBuffer : Nat) (s : State) : List Action → Option State
  | [] => some s
  | a :: rest =>
      match step sizeofSharedBuffer s a with
      | none => none
      | some s1 => run sizeofSharedBuffer s1 rest

/-- The states of a schedule, from the first on, as far as it can be run. -/
def states (sizeofSharedBuffer : Nat) (s : State) : List Action → List State
  | [] => [s]
  | a :: rest =>
      match step sizeofSharedBuffer s a with
      | none => [s]
      | some s1 => s :: states sizeofSharedBuffer s1 rest

/-- The states some interleaving of `producer()` and `consumer()` reaches
from the start of `main`. -/
def Reachable (sizeofSharedBuffer : Nat) (ns : Option Segment) (s : State) : Prop :=
  ∃ acts, run sizeofSharedBuffer (init ns) acts = some s

/-- The value `main` returns (line 83) once both threads are joined. -/
def main (s : State) : Option Int :=
  if s.prod.pc = .done ∧ s.cons.pc = .done then some 0 else none

/-! ## Vocabulary for the properties -/

/-- Program points of `producer()` after line 24 has created the segment
(an exception leaves `producer()` only from the mapping of line 26, as the
name is unbound at line 24). -/
@[simp]
def PPc.created : PPc → Bool
  | .remove | .create => false
  | _ => true

/-- Program points of `producer()` after line 25 has sized the segment. -/
@[simp]
def PPc.sized : PPc → Bool
  | .remove | .create | .truncate => false
  | _ => true

/-- Program points of `producer()` after the placement new of line 28. -/
@[simp]
def PPc.built : PPc → Bool
  | .remove | .create | .truncate | .map | .construct | .thrown => false
  | _ => true

/-- Program points of `producer()` inside the locked scope of lines 34-39. -/
@[simp]
def PPc.critical : PPc → Bool
  | .strcpy | .setFlag | .notify | .unlock => true
  | _ => false

/-- Program points of `producer()` after `strcpy` has returned. -/
@[simp]
def PPc.copied : PPc → Bool
  | .setFlag | .notify | .unlock | .finish | .done => true
  | _ => false

/-- Program points of `producer()` after line 36 has set the flag. -/
@[simp]
def PPc.flagged : PPc → Bool
  | .notify | .unlock | .finish | .done => true
  | _ => false

/-- How many bytes of the literal `strcpy` has stored so far. -/
@[simp]
def Producer.written (p : Producer) : Nat :=
  if p.pc.copied then 21 else if p.pc = .strcpy then p.i else 0

/-- Program points of `consumer()` at which its `scoped_lock` owns the mutex:
after line 58 and outside `wait`. -/
@[simp]
def CPc.holding : CPc → Bool
  | .announce | .check | .read | .unlock => true
  | _ => false

/-- Program points of `consumer()` from the lock of line 58 to the end of the
scope at line 65: the lock / wait phase. -/
def CPc.lockPhase : CPc → Bool
  | .lock | .announce | .check | .waiting | .relock | .read | .unlock => true
  | _ => false

/-- Program points of `consumer()` after line 58 has taken the mutex and
before the scope ends. -/
@[simp]
def CPc.locked : CPc → Bool
  | .announce | .check | .waiting | .relock | .read | .unlock => true
  | _ => false

/-- The segment the consumer has opened. -/
def State.cseg (s : State) : Segment :=
  match s.cons.shm with
  | some r => s.seg r
  | none => Segment.created

/-- Whether the mutex of the buffer a role works on is owned by that role. -/
def State.holdsMutex (s : State) : Role → Bool
  | .producer => s.fresh.buf.mutex = some .producer
  | .consumer => s.cons.shm ≠ none ∧ s.cseg.buf.mutex = some .consumer

/-- Whether the statement an action executes reads or writes `has_data` or
`message`: the constructor (line 28 / 18), `strcpy` (35), the flag write (36),
the loop test (60) and the read (64).  (`flagAtLock` is a record kept by the
model, not a read made by line 58.) -/
def touchesData (s : State) : Action → Bool
  | .producer _ => s.prod.pc = .construct ∨ s.prod.pc = .strcpy ∨ s.prod.pc = .setFlag
  | .consumer _ _ => s.cons.pc = .check ∨ s.cons.pc = .read

/-- Whether the statement an action executes uses the `SharedBuffer`: its
mutex, its condition, `has_data` or `message`; the constructor itself is not
counted. -/
def usesBuffer (s : State) : Action → Bool
  | .producer _ => s.prod.pc = .lock ∨ s.prod.pc.critical
  | .consumer _ _ => s.cons.pc.lockPhase

/-- Whether a schedule lets only the thread of `producer()` run. -/
def producerOnly (acts : List Action) : Bool :=
  acts.all (fun a => decide (a.role = Role.producer))

/-- Number of changes from false to true along a sequence of flag values. -/
def rises : List Bool → Nat
  | false :: true :: rest => rises (true :: rest) + 1
  | _ :: rest => rises rest
  | [] => 0

/-- Number of changes from true to false along a sequence of flag values. -/
def falls : List Bool → Nat
  | true :: false :: rest => falls (false :: rest) + 1
  | _ :: rest => falls rest
  | [] => 0

/-- What holds of the producer and of the segment it creates, in every state
of every interleaving. -/
structure ProdInv (sizeofSharedBuffer : Nat) (s : State) : Prop where
  name_create : s.prod.pc = .create → s.name = none
  built_eq : s.fresh.constructed = s.prod.pc.built
  constructions_eq : s.constructions = if s.prod.pc.built then 1 else 0
  size_eq : s.prod.pc.sized = true → s.fresh.size = sizeofSharedBuffer
  flag_eq : s.fresh.buf.has_data = s.prod.pc.flagged
  index_le : s.prod.pc = .strcpy → s.prod.i ≤ 20
  message_eq : s.fresh.buf.message =
    literal.take s.prod.written ++ List.replicate (MESSAGE_SIZE - s.prod.written) 0
  name_created : s.prod.pc.created = true → s.name ≠ some .stale

/-- What holds of the locals and counters of the consumer, in every state of
every interleaving. -/
structure ConsInv (c : Consumer) : Prop where
  flag_none : c.flagAtLock = none → c.waits = 0 ∧ c.received = none ∧ c.pc.locked = false
  flag_some : c.flagAtLock ≠ none → c.pc.locked = true ∨ c.received ≠ none
  unlock_received : c.pc = .unlock → c.received ≠ none
  received_pc : c.received ≠ none →
    (c.pc = .unlock ∨ c.pc = .loopTest ∨ c.pc = .finish ∨ c.pc = .remove ∨ c.pc = .done) ∧
    c.connected = true
  opens_eq : c.opens = c.notFound + (if c.shm = none then 0 else 1)
  sleeps_eq : c.sleeps + (if c.pc = .handler then 1 else 0) =
    c.notFound + (if c.mapFailed then 1 else 0)
  clock_eq : c.clock = 500 * c.sleeps + c.overslept
  openedAt_eq : (c.shm = none → c.openedAt = none) ∧
    (c.shm ≠ none → c.mapFailed = false → c.openedAt = some c.clock)
  no_shm : c.shm = none →
    (c.pc = .start ∨ c.pc = .loopTest ∨ c.pc = .openShm ∨ c.pc = .handler) ∧
    (c.pc ≠ .start → c.connected = false) ∧ c.mapFailed = false
  with_shm : c.shm ≠ none →
    c.pc ≠ .start ∧ c.pc ≠ .openShm ∧ (c.pc ≠ .connect → c.connected = true)
  map_failed : c.mapFailed = true →
    (c.pc = .handler ∨ c.pc = .loopTest ∨ c.pc = .finish ∨ c.pc = .remove ∨ c.pc = .done) ∧
    c.flagAtLock = none
  not_thrown : c.pc ≠ .thrown
  waited : c.pc = .waiting ∨ c.pc = .relock → c.waits ≠ 0
  handler_failed : c.pc = .handler → c.shm ≠ none → c.mapFailed = true

/-- What ties the two roles and the shared memory together, in every state of
every interleaving. -/
structure CrossInv (s : State) : Prop where
  not_created : s.prod.pc.created = false → s.name ≠ some .fresh ∧ s.cons.shm ≠ some .fresh
  mutex_only : s.fresh.buf.mutex = some .producer → s.prod.pc.critical = true
  waiters : s.fresh.buf.data_ready = [] ∨
    (s.fresh.buf.data_ready = [.consumer] ∧ s.cons.pc = .waiting ∧ s.cons.shm = some .fresh)
  read_flag : s.cons.pc = .read → s.cseg.buf.has_data = true
  flag_kept : s.cons.flagAtLock = some true → s.cseg.buf.has_data = true
  flag_true : s.cons.flagAtLock = some true → s.cons.waits = 0
  received_eq : ∀ r, s.cons.received = some r →
    s.cons.shm ≠ none ∧ r = cstr s.cseg.buf.message ∧ s.cseg.buf.has_data = true
  early : s.earlyAccess = true → s.cons.shm ≠ none
  created_le : ∀ k, s.createdAt = some k → k ≤ s.cons.clock
  opened_ge : s.cons.shm = some .fresh → ∀ k c, s.createdAt = some k →
    s.cons.openedAt = some c → k ≤ c

/-- What holds as long as the lock of line 58 has not been taken on a segment
that was not yet sized or constructed: the mutex excludes, and the flag
cannot change between the lock and the first loop test. -/
structure SafeInv (s : State) : Prop where
  mutex_crit : s.prod.pc.critical = true → s.fresh.buf.mutex = some .producer
  locked_built : s.cons.pc.locked = true → s.cseg.constructed = true
  hold : s.cons.pc.holding = true → s.cseg.buf.mutex = some .consumer
  first_check : s.cons.pc = .announce ∨ s.cons.pc = .check → s.cons.waits = 0 →
    s.cons.flagAtLock = some s.cseg.buf.has_data
  flag_false : s.cons.flagAtLock = some false → s.cons.waits = 0 →
    s.cons.pc = .announce ∨ s.cons.pc = .check

/-- The facts that hold in every state of every interleaving, whatever
"SyncShm" names at the start. -/
structure Inv (sizeofSharedBuffer : Nat) (s : State) : Prop where
  prod : ProdInv sizeofSharedBuffer s
  cons : ConsInv s.cons
  cross : CrossInv s
  safe : s.earlyAccess = false → SafeInv s

/-- The further facts that hold from a state on in which neither the name
nor the handle of the consumer is bound to a stale segment. -/
structure InvAbsent (s : State) : Prop where
  name_fresh : s.name ≠ some .stale
  shm_fresh : s.cons.shm ≠ some .stale
  done_removed : s.cons.pc = .done → s.name = none


/-! ## Schedules used in the examples -/

/-- The state a schedule leads to from the start of `main`; the start itself
when the schedule asks for a step that cannot be taken. -/
def stateAfter (sizeofSharedBuffer : Nat) (ns : Option Segment) (acts : List Action) : State :=
  (run sizeofSharedBuffer (init ns) acts).getD (init ns)

/-- A value of `sizeof(SharedBuffer)` for the examples. -/
def exampleSize : Nat := 352

/-- The thread of `producer()` runs `n` statements, every mapping succeeding. -/
def producerSteps (n : Nat) : List Action := List.replicate n (Action.producer true)

/-- The thread of `consumer()` runs `n` statements, every mapping succeeding
and every sleep lasting exactly 500 ms. -/
def consumerSteps (n : Nat) : List Action := List.replicate n (Action.consumer true 0)

/-- All of `producer()`: lines 22 to 41, `strcpy` taking 21 steps. -/
def producerAlone : List Action := producerSteps 32

/-- The producer finishes first; the consumer then connects, takes the mutex,
finds the flag set and reads (it stands after line 64). -/
def handshake : List Action := producerAlone ++ consumerSteps 9

/-- The handshake followed by the rest of `consumer()`: unlock, leave the
loop, report, remove. -/
def fullRun : List Action := handshake ++ consumerSteps 4

/-- The consumer arrives first and waits: the producer constructs the buffer,
the consumer blocks in `wait`, wakes up with the flag still false and blocks
again; the producer then writes, sets the flag and notifies, and the consumer
takes the mutex again and stands before line 64. -/
def waitFirst : List Action :=
  producerSteps 5 ++ consumerSteps 8 ++ consumerSteps 3 ++ producerSteps 27 ++ consumerSteps 2

/-- The first four statements of `producer()`: it stands before the
placement new of line 28. -/
def beforeConstruct : List Action := producerSteps 4

/-- The producer has created and sized the segment but not yet constructed
the buffer; the consumer opens, maps and locks. -/
def earlyLock : List Action := producerSteps 3 ++ consumerSteps 6

/-- After the early lock the producer maps, constructs (which initialises the
mutex the consumer took), locks, copies the message and sets the flag; the
consumer, still before its first loop test, finds the flag true and stands
before line 64 while the producer is inside its locked scope. -/
def earlyLockRead : List Action := earlyLock ++ producerSteps 26 ++ consumerSteps 2

/-- After the early lock the producer maps and constructs; the consumer
stands before its loop test of line 60 with the mutex initialised anew. -/
def earlyLockCheck : List Action := earlyLock ++ producerSteps 2 ++ consumerSteps 1

/-- The first attempt of the consumer finds no segment, and the sleep of
line 68 lasts 3000 ms; meanwhile the producer has created and constructed the
segment, and the second attempt, 3000 ms after the first, succeeds. -/
def slowSleep : List Action :=
  consumerSteps 3 ++ [Action.consumer true 2500] ++ producerSteps 5 ++ consumerSteps 4

/-- A segment left by an earlier run that crashed inside the locked scope of
the producer: sized, constructed, the mutex owned, the flag set, other bytes
in `message`. -/
def staleSegment : Segment :=
  { size := exampleSize, constructed := true,
    buf := { mutex := some .producer, data_ready := [.consumer], has_data := true,
             message := List.replicate MESSAGE_SIZE 88 } }

/-- The producer alone, the mapping of line 26 failing. -/
def producerMapFails : List Action := producerSteps 3 ++ [Action.producer false]

/-- The producer finishes; the consumer opens the segment, and mapping it
fails.  The consumer then runs on to its end. -/
def mapFailure : List Action :=
  producerAlone ++ consumerSteps 4 ++ [Action.consumer false 0] ++ consumerSteps 4

/-- One failed attempt to open: line 50 throws, the handler sleeps, and the
loop test sends the consumer back to line 50. -/
def failedAttempt : List Action := consumerSteps 3

/-- The producer removes the name, the consumer fails to open `n` times, the
producer creates, sizes, maps and constructs, and the consumer opens and
maps. -/
def retrySchedule (n : Nat) : List Action :=
  producerSteps 1 ++ consumerSteps 2 ++ (List.replicate n failedAttempt).flatten ++
    producerSteps 4 ++ consumerSteps 3

/-- The state of the retry loop at line 50 after `n` failed attempts, the
producer standing before line 24. -/
def retryState (ns : Option Segment) (n : Nat) : State :=
  { init ns with
    name := none
    prod := { pc := .create, i := 0 }
    cons := { (init ns).cons with pc := .openShm, opens := n, notFound := n, sleeps := n,
                                  clock := 500 * n }
    out := Line.consumerWaitingShm :: List.replicate n Line.consumerException }


/-- The producer inside `strcpy`, `i` bytes copied, the consumer not started. -/
def copying (sz : Nat) (ns : Option Segment) (i : Nat) : State :=
  { init ns with
    name := some .fresh
    fresh := { size := sz, constructed := true,
               buf := { mutex := some .producer, data_ready := [], has_data := false,
                        message := literal.take i ++ List.replicate (MESSAGE_SIZE - i) 0 } }
    prod := { pc := .strcpy, i := i }
    constructions := 1
    out := [.producerPreparing]
    createdAt := some 0 }

/-- The state in which `producer()` leaves the system when it runs alone. -/
def produced (sz : Nat) (ns : Option Segment) : State :=
  { init ns with
    name := some .fresh
    fresh := { size := sz, constructed := true,
               buf := { mutex := none, data_ready := [], has_data := true,
                        message := payload ++ 0 :: List.replicate 235 0 } }
    prod := { pc := .done, i := 20 }
    constructions := 1
    out := [.producerPreparing, .producerDataReady, .producerFinishing]
    createdAt := some 0 }


/-! ## Preservation of the invariants -/

theorem strcpy_byte (i : Nat) (h : i ≤ 20) :
    (literal.take i ++ List.replicate (MESSAGE_SIZE - i) 0).set i (literal.getD i 0) =
      literal.take (i + 1) ++ List.replicate (MESSAGE_SIZE - (i + 1)) 0 := by
  interval_cases i <;> rfl

theorem literal_nul (i : Nat) (h : i ≤ 20) : literal.getD i 0 = 0 ↔ i = 20 := by
  interval_cases i <;> simp [literal, payload]

theorem notify_one_frame (s : State) :
    (notify_one s).prod = s.prod ∧ (notify_one s).name = s.name ∧
    (notify_one s).constructions = s.constructions ∧
    (notify_one s).fresh.size = s.fresh.size ∧
    (notify_one s).fresh.constructed = s.fresh.constructed ∧
    (notify_one s).fresh.buf.has_data = s.fresh.buf.has_data ∧
    (notify_one s).fresh.buf.message = s.fresh.buf.message ∧
    (notify_one s).fresh.buf.mutex = s.fresh.buf.mutex ∧
    (notify_one s).stale = s.stale ∧ (notify_one s).earlyAccess = s.earlyAccess := by
  unfold notify_one
  split
  · simp
  · split <;> simp

theorem prodInv_producer (sz : Nat) (ok : Bool) (s t : State) (h : ProdInv sz s)
    (hs : producer sz ok s = some t) : ProdInv sz t := by
  obtain ⟨name, stale, fresh, ⟨ppc, i⟩, cons, k, ea, out, cat⟩ := s
  obtain ⟨fsize, fbuilt, ⟨fmutex, fwait, fflag, fmsg⟩⟩ := fresh
  obtain ⟨h1, h2, h3, h4, h5, h6, h7, h8⟩ := h
  cases ppc
  case done | thrown => simp [producer] at hs
  case strcpy =>
    have hi : i ≤ 20 := h6 rfl
    simp only [producer, Option.some.injEq] at hs
    have hm : fmsg.set i (literal.getD i 0) =
        literal.take (i + 1) ++ List.replicate (MESSAGE_SIZE - (i + 1)) 0 := by
      have h7a := h7
      simp only [Producer.written, PPc.copied, Bool.false_eq_true, if_false, if_true] at h7a
      rw [h7a]
      exact strcpy_byte i hi
    rw [hm] at hs
    clear hm
    by_cases hlast : i = 20
    · subst hlast
      have hc : literal.getD 20 0 = 0 := rfl
      simp only [hc, if_true] at hs
      subst hs
      constructor <;> simp_all [PPc.built, PPc.sized, PPc.flagged, Producer.written, PPc.copied]
    · have hc : ¬ literal.getD i 0 = 0 := fun hz => hlast ((literal_nul i hi).1 hz)
      simp only [hc, if_false] at hs
      subst hs
      constructor <;> simp_all [PPc.built, PPc.sized, PPc.flagged, Producer.written, PPc.copied]
      omega
  case notify =>
    simp only [producer, Option.some.injEq] at hs
    obtain ⟨f1, f2, f3, f4, f5, f6, f7, -, -, -⟩ := notify_one_frame
      { name := name, stale := stale,
        fresh := { size := fsize, constructed := fbuilt,
                   buf := { mutex := fmutex, data_ready := fwait, has_data := fflag,
                            message := fmsg } },
        prod := { pc := .notify, i := i }, cons := cons, constructions := k,
        earlyAccess := ea, out := out, createdAt := cat }
    subst hs
    constructor <;> simp_all [PPc.built, PPc.sized, PPc.flagged, Producer.written, PPc.copied]
  all_goals
    simp only [producer] at hs
    try split at hs
    all_goals
      first
      | (simp at hs; done)
      | (simp only [Option.some.injEq] at hs
         subst hs
         constructor <;>
           simp_all [PPc.built, PPc.sized, PPc.flagged, Producer.written, PPc.copied,
             SharedBuffer.construct, Segment.created, zeroed])

theorem consumer_frame (sz : Nat) (ok : Bool) (late : Nat) (s t : State)
    (hs : consumer sz ok late s = some t) :
    t.prod = s.prod ∧ t.constructions = s.constructions ∧ t.fresh.size = s.fresh.size ∧
    t.fresh.constructed = s.fresh.constructed ∧ t.fresh.buf.has_data = s.fresh.buf.has_data ∧
    t.fresh.buf.message = s.fresh.buf.message ∧ (t.name = s.name ∨ t.name = none) ∧
    t.createdAt = s.createdAt := by
  obtain ⟨name, stale, fresh, prod, cons, k, ea, out, cat⟩ := s
  obtain ⟨cpc, connected, shm, opens, notFound, sleeps, clock, overslept, openedAt, mapFailed,
    waits, flagAtLock, received⟩ := cons
  cases cpc <;> obtain _ | _ | _ := shm <;> simp only [consumer, State.setBuf, State.seg] at hs <;>
    (try split at hs) <;> (try split at hs) <;> (try split at hs) <;>
    first
    | (simp at hs; done)
    | (simp only [Option.some.injEq] at hs
       subst hs
       simp)

theorem prodInv_consumer (sz : Nat) (ok : Bool) (late : Nat) (s t : State) (h : ProdInv sz s)
    (hs : consumer sz ok late s = some t) : ProdInv sz t := by
  obtain ⟨f1, f2, f3, f4, f5, f6, f7, -⟩ := consumer_frame sz ok late s t hs
  obtain ⟨h1, h2, h3, h4, h5, h6, h7, h8⟩ := h
  constructor
  · intro hp
    rw [f1] at hp
    rcases f7 with f7 | f7
    · rw [f7]
      exact h1 hp
    · exact f7
  · rw [f4, f1]
    exact h2
  · rw [f2, f1]
    exact h3
  · rw [f3, f1]
    exact h4
  · rw [f5, f1]
    exact h5
  · rw [f1]
    exact h6
  · rw [f6, f1]
    exact h7
  · intro hp
    rw [f1] at hp
    rcases f7 with f7 | f7
    · rw [f7]
      exact h8 hp
    · rw [f7]
      simp

theorem setBuf_cons (s : State) (r : SegRef) (b : SharedBuffer) : (s.setBuf r b).cons = s.cons := by
  cases r <;> rfl

theorem consInv_consumer (sz : Nat) (ok : Bool) (late : Nat) (s t : State)
    (h : ConsInv s.cons) (hs : consumer sz ok late s = some t) : ConsInv t.cons := by
  obtain ⟨name, stale, fresh, prod, cons, k, ea, out, cat⟩ := s
  obtain ⟨cpc, connected, shm, opens, notFound, sleeps, clock, overslept, openedAt, mapFailed,
    waits, flagAtLock, received⟩ := cons
  obtain ⟨c1, c2, c3, c4, c5, c6, c7, c8, c9, c10, c11, c12, c13, c14⟩ := h
  dsimp only at c1 c2 c3 c4 c5 c6 c7 c8 c9 c10 c11 c12 c13 c14
  cases cpc
  case done | thrown => simp [consumer] at hs
  case start | connect | announce | handler | finish | remove =>
    simp only [consumer, Option.some.injEq] at hs
    subst hs
    all_goals (
      refine ⟨?_, ?_, ?_, ?_, ?_, ?_, ?_, ?_, ?_, ?_, ?_, ?_, ?_, ?_⟩
      · assumption
      · assumption
      · clear * - c3
        simp_all; done
      · clear * - c4 c10 c1 c2
        simp_all; done
      · assumption
      · assumption
      · clear * - c7
        first | assumption | (simp_all; omega)
      · clear * - c8 c9 c10 c11 c14
        first | assumption | (simp_all; done)
      · clear * - c9 c10
        simp_all; done
      · clear * - c10 c9
        simp_all; done
      · clear * - c11 c2 c4 c9 c10
        simp_all; done
      · clear * - c12
        simp_all; done
      · clear * - c13
        simp_all; done
      · clear * - c14 c10
        simp_all; done)
  case loopTest =>
    cases connected <;>
      simp only [consumer, Option.some.injEq, if_true, if_false, Bool.false_eq_true] at hs <;>
      subst hs
    all_goals (
      refine ⟨?_, ?_, ?_, ?_, ?_, ?_, ?_, ?_, ?_, ?_, ?_, ?_, ?_, ?_⟩
      · assumption
      · assumption
      · clear * - c3
        simp_all; done
      · clear * - c4 c10 c1 c2
        simp_all; done
      · assumption
      · assumption
      · assumption
      · assumption
      · clear * - c9 c10
        simp_all; done
      · clear * - c10 c9
        simp_all; done
      · clear * - c11 c2 c4 c9 c10
        simp_all; done
      · clear * - c12
        simp_all; done
      · clear * - c13
        simp_all; done
      · clear * - c14 c10
        simp_all; done)
  case openShm =>
    obtain _ | r := name <;>
      simp only [consumer, catchClause, Option.some.injEq] at hs <;>
      subst hs
    all_goals (
      refine ⟨?_, ?_, ?_, ?_, ?_, ?_, ?_, ?_, ?_, ?_, ?_, ?_, ?_, ?_⟩
      · assumption
      · assumption
      · clear * - c3
        simp_all; done
      · clear * - c4 c10 c1 c2
        simp_all; done
      · clear * - c5 c10
        simp_all; done
      · clear * - c6 c11
        first | assumption | (simp_all; done)
      · assumption
      · clear * - c8 c9 c10 c11 c14
        first | assumption | (simp_all; done)
      · clear * - c9 c10
        simp_all; done
      · clear * - c10 c9
        simp_all; done
      · clear * - c11 c2 c4 c9 c10
        simp_all; done
      · clear * - c12
        simp_all; done
      · clear * - c13
        simp_all; done
      · clear * - c14 c10
        simp_all; done)
  case map =>
    cases ok <;>
      simp only [consumer, catchClause, Option.some.injEq, if_true, if_false,
        Bool.false_eq_true] at hs <;>
      subst hs
    all_goals (
      refine ⟨?_, ?_, ?_, ?_, ?_, ?_, ?_, ?_, ?_, ?_, ?_, ?_, ?_, ?_⟩
      · assumption
      · assumption
      · clear * - c3
        simp_all; done
      · clear * - c4 c10 c1 c2
        simp_all; done
      · assumption
      · clear * - c6 c11
        first | assumption | (simp_all; done)
      · assumption
      · clear * - c8 c9 c10 c11 c14
        first | assumption | (simp_all; done)
      · clear * - c9 c10
        simp_all; done
      · clear * - c10 c9
        simp_all; done
      · clear * - c11 c2 c4 c9 c10
        simp_all; done
      · clear * - c12
        simp_all; done
      · clear * - c13
        simp_all; done
      · clear * - c14 c10
        simp_all; done)
  case lock | check | waiting | relock | read | unlock =>
    obtain _ | r := shm
    · simp [consumer] at hs
    · simp only [consumer] at hs
      (try split at hs) <;>
        first
        | (simp at hs; done)
        | (simp only [Option.some.injEq] at hs
           subst hs
           simp only [setBuf_cons])
      all_goals (
        refine ⟨?_, ?_, ?_, ?_, ?_, ?_, ?_, ?_, ?_, ?_, ?_, ?_, ?_, ?_⟩
        · clear * - c1 c2 c4
          first | assumption | (simp_all; done)
        · clear * - c2 c3 c1
          first | assumption | (simp_all; done)
        · clear * - c3
          simp_all; done
        · clear * - c4 c10 c1 c2
          simp_all; done
        · assumption
        · assumption
        · assumption
        · assumption
        · clear * - c9 c10
          simp_all; done
        · clear * - c10 c9
          simp_all; done
        · clear * - c11 c2 c4 c9 c10
          simp_all; done
        · clear * - c12
          simp_all; done
        · clear * - c13
          simp_all; done
        · clear * - c14 c10
          simp_all; done)

theorem producer_cons (sz : Nat) (ok : Bool) (s t : State)
    (hw : s.fresh.buf.data_ready = [] ∨ s.cons.pc = .waiting)
    (hs : producer sz ok s = some t) :
    t.cons = s.cons ∨ (s.cons.pc = .waiting ∧ t.cons = { s.cons with pc := .relock }) := by
  obtain ⟨name, stale, fresh, ⟨ppc, i⟩, cons, k, ea, out, cat⟩ := s
  cases ppc
  case notify =>
    simp only [producer, Option.some.injEq] at hs
    subst hs
    simp only [notify_one]
    split
    · simp
    · split
      · rcases hw with hw | hw
        · simp_all
        · right
          exact ⟨hw, rfl⟩
      · simp
  all_goals
    simp only [producer] at hs
    try split at hs
    all_goals
      first
      | (simp at hs; done)
      | (simp only [Option.some.injEq] at hs
         subst hs
         simp)

theorem consInv_producer (sz : Nat) (ok : Bool) (s t : State) (h : ConsInv s.cons)
    (hw : s.fresh.buf.data_ready = [] ∨ s.cons.pc = .waiting)
    (hs : producer sz ok s = some t) : ConsInv t.cons := by
  rcases producer_cons sz ok s t hw hs with hc | ⟨hpc, hc⟩
  · rw [hc]
    exact h
  · rw [hc]
    obtain ⟨c1, c2, c3, c4, c5, c6, c7, c8, c9, c10, c11, c12, c13, c14⟩ := h
    constructor <;> simp_all [CPc.locked]

theorem crossInv_producer (sz : Nat) (ok : Bool) (s t : State) (hp : ProdInv sz s)
    (hx : CrossInv s) (hs : producer sz ok s = some t) : CrossInv t := by
  obtain ⟨name, stale, fresh, ⟨ppc, i⟩, cons, k, ea, out, cat⟩ := s
  obtain ⟨cpc, connected, shm, opens, notFound, sleeps, clock, overslept, openedAt, mapFailed,
    waits, flagAtLock, received⟩ := cons
  obtain ⟨fsize, fbuilt, ⟨fmutex, fwait, fflag, fmsg⟩⟩ := fresh
  obtain ⟨p1, p2, p3, p4, p5, p6, p7, p8⟩ := hp
  obtain ⟨x1, x2, x3, x4, x5, x6, x7, x8, x9, x10⟩ := hx
  dsimp only at p1 p2 p3 p4 p5 p6 p7 p8 x1 x2 x3 x4 x5 x6 x7 x8 x9 x10
  cases ppc
  case done | thrown => simp [producer] at hs
  case remove | truncate | construct | prepare | setFlag | unlock | finish =>
    simp only [producer, Option.some.injEq] at hs
    subst hs
    all_goals (
      refine ⟨?_, ?_, ?_, ?_, ?_, ?_, ?_, ?_, ?_, ?_⟩
      · clear * - x1
        first | assumption | (simp_all [State.cseg, State.seg, SharedBuffer.construct, Segment.created, zeroed]; done)
      · clear * - x2
        first | assumption | (simp_all [State.cseg, State.seg, SharedBuffer.construct, Segment.created, zeroed]; done)
      · clear * - x3
        first | assumption | (simp_all [State.cseg, State.seg, SharedBuffer.construct, Segment.created, zeroed]; done)
      · clear * - x4 x1 p5
        obtain _ | _ | _ := shm <;>
          first | assumption | (simp_all [State.cseg, State.seg, SharedBuffer.construct, Segment.created, zeroed]; done)
      · clear * - x5 x1 p5
        obtain _ | _ | _ := shm <;>
          first | assumption | (simp_all [State.cseg, State.seg, SharedBuffer.construct, Segment.created, zeroed]; done)
      · assumption
      · clear * - x7 x1 p5
        obtain _ | _ | _ := shm <;>
          first | assumption | (simp_all [State.cseg, State.seg, SharedBuffer.construct, Segment.created, zeroed]; done)
      · assumption
      · assumption
      · assumption)
  case strcpy =>
    by_cases hz : literal.getD i 0 = 0 <;>
      simp only [producer, Option.some.injEq, hz, if_true, if_false] at hs <;>
      subst hs
    all_goals (
      refine ⟨?_, ?_, ?_, ?_, ?_, ?_, ?_, ?_, ?_, ?_⟩
      · assumption
      · assumption
      · assumption
      · obtain _ | _ | _ := shm <;>
          assumption
      · obtain _ | _ | _ := shm <;>
          assumption
      · assumption
      · clear * - x7 x1 p5
        obtain _ | _ | _ := shm <;>
          first | assumption | (simp_all [State.cseg, State.seg, SharedBuffer.construct, Segment.created, zeroed]; done)
      · assumption
      · assumption
      · assumption)
  case create =>
    have hn : name = none := p1 rfl
    subst hn
    simp only [producer, Option.some.injEq] at hs
    subst hs
    all_goals (
      refine ⟨?_, ?_, ?_, ?_, ?_, ?_, ?_, ?_, ?_, ?_⟩
      · clear * - x1
        simp_all [State.cseg, State.seg, SharedBuffer.construct, Segment.created, zeroed]; done
      · clear * - x2
        simp_all [State.cseg, State.seg, SharedBuffer.construct, Segment.created, zeroed]; done
      · clear * - x3
        simp_all [State.cseg, State.seg, SharedBuffer.construct, Segment.created, zeroed]; done
      · clear * - x4 x1 p5
        obtain _ | _ | _ := shm <;>
          first | assumption | (simp_all [State.cseg, State.seg, SharedBuffer.construct, Segment.created, zeroed]; done)
      · clear * - x5 x1 p5
        obtain _ | _ | _ := shm <;>
          first | assumption | (simp_all [State.cseg, State.seg, SharedBuffer.construct, Segment.created, zeroed]; done)
      · assumption
      · clear * - x7 x1 p5
        obtain _ | _ | _ := shm <;>
          first | assumption | (simp_all [State.cseg, State.seg, SharedBuffer.construct, Segment.created, zeroed]; done)
      · assumption
      · clear * - x9
        simp_all [State.cseg, State.seg, SharedBuffer.construct, Segment.created, zeroed]; done
      · clear * - x10 x1
        simp_all [State.cseg, State.seg, SharedBuffer.construct, Segment.created, zeroed]; done)
  case map =>
    cases ok <;>
      simp only [producer, Option.some.injEq, if_true, if_false, Bool.false_eq_true] at hs <;>
      subst hs
    all_goals (
      refine ⟨?_, ?_, ?_, ?_, ?_, ?_, ?_, ?_, ?_, ?_⟩
      · assumption
      · assumption
      · assumption
      · obtain _ | _ | _ := shm <;>
          assumption
      · obtain _ | _ | _ := shm <;>
          assumption
      · assumption
      · obtain _ | _ | _ := shm <;>
          assumption
      · assumption
      · assumption
      · assumption)
  case lock =>
    obtain _ | w := fmutex
    · simp only [producer, Option.some.injEq, if_true] at hs
      subst hs
      all_goals (
        refine ⟨?_, ?_, ?_, ?_, ?_, ?_, ?_, ?_, ?_, ?_⟩
        · assumption
        · clear * - x2
          simp_all [State.cseg, State.seg, SharedBuffer.construct, Segment.created, zeroed]; done
        · assumption
        · obtain _ | _ | _ := shm <;>
            assumption
        · obtain _ | _ | _ := shm <;>
            assumption
        · assumption
        · obtain _ | _ | _ := shm <;>
            assumption
        · assumption
        · assumption
        · assumption)
    · simp [producer] at hs
  case notify =>
    simp only [producer, Option.some.injEq] at hs
    rcases x3 with hw | ⟨hw, hc, hshm⟩
    · subst hw
      simp only [notify_one] at hs
      subst hs
      have x3 : ([] : List Role) = [] := rfl
      all_goals (
        refine ⟨?_, ?_, ?_, ?_, ?_, ?_, ?_, ?_, ?_, ?_⟩
        · assumption
        · assumption
        · clear * - x3
          simp_all [State.cseg, State.seg, SharedBuffer.construct, Segment.created, zeroed]; done
        · obtain _ | _ | _ := shm <;>
            assumption
        · obtain _ | _ | _ := shm <;>
            assumption
        · assumption
        · obtain _ | _ | _ := shm <;>
            assumption
        · assumption
        · assumption
        · assumption)
    · subst hw hc hshm
      simp only [notify_one, if_true] at hs
      subst hs
      have x3 : ([] : List Role) = [] := rfl
      all_goals (
        refine ⟨?_, ?_, ?_, ?_, ?_, ?_, ?_, ?_, ?_, ?_⟩
        · assumption
        · assumption
        · clear * - x3
          simp_all [State.cseg, State.seg, SharedBuffer.construct, Segment.created, zeroed]; done
        · clear * - x4 x1 p5
          simp_all [State.cseg, State.seg, SharedBuffer.construct, Segment.created, zeroed]; done
        · assumption
        · assumption
        · assumption
        · assumption
        · assumption
        · assumption)

theorem safeInv_producer (sz : Nat) (ok : Bool) (s t : State) (hp : ProdInv sz s)
    (hx : CrossInv s) (hy : SafeInv s) (hs : producer sz ok s = some t) : SafeInv t := by
  obtain ⟨name, stale, fresh, ⟨ppc, i⟩, cons, k, ea, out, cat⟩ := s
  obtain ⟨cpc, connected, shm, opens, notFound, sleeps, clock, overslept, openedAt, mapFailed,
    waits, flagAtLock, received⟩ := cons
  obtain ⟨fsize, fbuilt, ⟨fmutex, fwait, fflag, fmsg⟩⟩ := fresh
  obtain ⟨p1, p2, p3, p4, p5, p6, p7, p8⟩ := hp
  obtain ⟨x1, x2, x3, x4, x5, x6, x7, x8, x9, x10⟩ := hx
  obtain ⟨y1, y2, y3, y4, y5⟩ := hy
  dsimp only at p1 p2 p3 p4 p5 p6 p7 p8 x1 x2 x3 x4 x5 x6 x7 x8 x9 x10 y1 y2 y3 y4 y5
  cases ppc
  case done | thrown => simp [producer] at hs
  case remove | truncate | construct | prepare | setFlag | unlock | finish =>
    simp only [producer, Option.some.injEq] at hs
    subst hs
    all_goals (
      refine ⟨?_, ?_, ?_, ?_, ?_⟩
      · clear * - y1
        first | assumption | (simp_all [State.cseg, State.seg, SharedBuffer.construct, Segment.created, zeroed]; done)
      · clear * - y2 x1 p2
        obtain _ | _ | _ := shm <;>
          first | assumption | (simp_all [State.cseg, State.seg, SharedBuffer.construct, Segment.created, zeroed]; done)
      · clear * - y3 y2 x1 y1 p2
        obtain _ | _ | _ := shm <;>
          first | assumption | (simp_all [State.cseg, State.seg, SharedBuffer.construct, Segment.created, zeroed]; done) | (cases cpc <;> simp_all [State.cseg, State.seg, SharedBuffer.construct, Segment.created, zeroed] <;> done)
      · clear * - y4 y3 y2 x1 y1 p2 p5
        obtain _ | _ | _ := shm <;>
          first | assumption | (simp_all [State.cseg, State.seg, SharedBuffer.construct, Segment.created, zeroed]; done) | (cases cpc <;> simp_all [State.cseg, State.seg, SharedBuffer.construct, Segment.created, zeroed] <;> done)
      · assumption)
  case strcpy =>
    by_cases hz : literal.getD i 0 = 0 <;>
      simp only [producer, Option.some.injEq, hz, if_true, if_false] at hs <;>
      subst hs
    all_goals (
      refine ⟨?_, ?_, ?_, ?_, ?_⟩
      · assumption
      · obtain _ | _ | _ := shm <;>
          assumption
      · obtain _ | _ | _ := shm <;>
          assumption
      · obtain _ | _ | _ := shm <;>
          assumption
      · assumption)
  case create =>
    have hn : name = none := p1 rfl
    subst hn
    simp only [producer, Option.some.injEq] at hs
    subst hs
    all_goals (
      refine ⟨?_, ?_, ?_, ?_, ?_⟩
      · clear * - y1
        simp_all [State.cseg, State.seg, SharedBuffer.construct, Segment.created, zeroed]; done
      · clear * - y2 x1 p2
        obtain _ | _ | _ := shm <;>
          first | assumption | (simp_all [State.cseg, State.seg, SharedBuffer.construct, Segment.created, zeroed]; done)
      · clear * - y3 y2 x1 y1 p2
        obtain _ | _ | _ := shm <;>
          first | assumption | (simp_all [State.cseg, State.seg, SharedBuffer.construct, Segment.created, zeroed]; done)
      · clear * - y4 y3 y2 x1 y1 p2 p5
        obtain _ | _ | _ := shm <;>
          first | assumption | (simp_all [State.cseg, State.seg, SharedBuffer.construct, Segment.created, zeroed]; done)
      · assumption)
  case map =>
    cases ok <;>
      simp only [producer, Option.some.injEq, if_true, if_false, Bool.false_eq_true] at hs <;>
      subst hs
    all_goals (
      refine ⟨?_, ?_, ?_, ?_, ?_⟩
      · assumption
      · obtain _ | _ | _ := shm <;>
          assumption
      · obtain _ | _ | _ := shm <;>
          assumption
      · obtain _ | _ | _ := shm <;>
          assumption
      · assumption)
  case lock =>
    obtain _ | w := fmutex
    · simp only [producer, Option.some.injEq, if_true] at hs
      subst hs
      all_goals (
        refine ⟨?_, ?_, ?_, ?_, ?_⟩
        · clear * - y1
          simp_all [State.cseg, State.seg, SharedBuffer.construct, Segment.created, zeroed]; done
        · obtain _ | _ | _ := shm <;>
            assumption
        · clear * - y3 y2 x1 y1 p2
          obtain _ | _ | _ := shm <;>
            first | assumption | (simp_all [State.cseg, State.seg, SharedBuffer.construct, Segment.created, zeroed]; done)
        · obtain _ | _ | _ := shm <;>
            assumption
        · assumption)
    · simp [producer] at hs
  case notify =>
    simp only [producer, Option.some.injEq] at hs
    rcases x3 with hw | ⟨hw, hc, hshm⟩
    · subst hw
      simp only [notify_one] at hs
      subst hs
      have x3 : ([] : List Role) = [] := rfl
      all_goals (
        refine ⟨?_, ?_, ?_, ?_, ?_⟩
        · assumption
        · obtain _ | _ | _ := shm <;>
            assumption
        · obtain _ | _ | _ := shm <;>
            assumption
        · obtain _ | _ | _ := shm <;>
            assumption
        · assumption)
    · subst hw hc hshm
      simp only [notify_one, if_true] at hs
      subst hs
      have x3 : ([] : List Role) = [] := rfl
      all_goals (
        refine ⟨?_, ?_, ?_, ?_, ?_⟩
        · assumption
        · assumption
        · assumption
        · clear * - y4 y3 y2 x1 y1 p2 p5
          simp_all [State.cseg, State.seg, SharedBuffer.construct, Segment.created, zeroed]; done
        · clear * - y5
          simp_all [State.cseg, State.seg, SharedBuffer.construct, Segment.created, zeroed]; done)

theorem crossInv_consumer (sz : Nat) (ok : Bool) (late : Nat) (s t : State)
    (hc : ConsInv s.cons) (hx : CrossInv s) (hs : consumer sz ok late s = some t) :
    CrossInv t := by
  obtain ⟨name, stale, fresh, ⟨ppc, i⟩, cons, k, ea, out, cat⟩ := s
  obtain ⟨cpc, connected, shm, opens, notFound, sleeps, clock, overslept, openedAt, mapFailed,
    waits, flagAtLock, received⟩ := cons
  obtain ⟨fsize, fbuilt, ⟨fmutex, fwait, fflag, fmsg⟩⟩ := fresh
  obtain ⟨ssize, sbuilt, ⟨smutex, swait, sflag, smsg⟩⟩ := stale
  obtain ⟨c1, c2, c3, c4, c5, c6, c7, c8, c9, c10, c11, c12, c13, c14⟩ := hc
  obtain ⟨x1, x2, x3, x4, x5, x6, x7, x8, x9, x10⟩ := hx
  dsimp only at c1 c2 c3 c4 c5 c6 c7 c8 c9 c10 c11 c12 c13 c14 x1 x2 x3 x4 x5 x6 x7 x8 x9 x10
  cases cpc
  case done | thrown => simp [consumer] at hs
  case start | connect | announce | handler | finish | remove =>
    simp only [consumer, Option.some.injEq] at hs
    subst hs
    all_goals (
      refine ⟨?_, ?_, ?_, ?_, ?_, ?_, ?_, ?_, ?_, ?_⟩
      · clear * - x1
        first | assumption | (simp_all [State.cseg, State.seg, SharedBuffer.construct, Segment.created, zeroed]; done)
      · assumption
      · clear * - x3
        simp_all [State.cseg, State.seg, SharedBuffer.construct, Segment.created, zeroed]; done
      · clear * - x4
        simp_all [State.cseg, State.seg, SharedBuffer.construct, Segment.created, zeroed]; done
      · assumption
      · assumption
      · assumption
      · assumption
      · clear * - x9
        first | assumption | (intro k hk; have h9 := x9 k hk; dsimp only; omega)
      · assumption)
  case loopTest =>
    cases connected <;>
      simp only [consumer, State.seg, State.setBuf, catchClause, Option.some.injEq, if_true, if_false, Bool.false_eq_true] at hs <;>
      subst hs
    all_goals (
      refine ⟨?_, ?_, ?_, ?_, ?_, ?_, ?_, ?_, ?_, ?_⟩
      · assumption
      · assumption
      · clear * - x3
        simp_all [State.cseg, State.seg, SharedBuffer.construct, Segment.created, zeroed]; done
      · clear * - x4
        simp_all [State.cseg, State.seg, SharedBuffer.construct, Segment.created, zeroed]; done
      · assumption
      · assumption
      · assumption
      · assumption
      · assumption
      · assumption)
  case openShm =>
    have hshm : shm = none := by
      by_contra hne
      exact (c10 hne).2.1 rfl
    subst hshm
    obtain _ | _ | _ := name <;>
      simp only [consumer, State.seg, State.setBuf, catchClause, Option.some.injEq, if_true, if_false, Bool.false_eq_true] at hs <;>
      subst hs
    all_goals (
      refine ⟨?_, ?_, ?_, ?_, ?_, ?_, ?_, ?_, ?_, ?_⟩
      · clear * - x1
        first | assumption | (simp_all [State.cseg, State.seg, SharedBuffer.construct, Segment.created, zeroed]; done)
      · assumption
      · clear * - x3
        simp_all [State.cseg, State.seg, SharedBuffer.construct, Segment.created, zeroed]; done
      · clear * - x4
        simp_all [State.cseg, State.seg, SharedBuffer.construct, Segment.created, zeroed]; done
      · clear * - x5 c2 c4
        first | assumption | (simp_all [State.cseg, State.seg, SharedBuffer.construct, Segment.created, zeroed]; done)
      · assumption
      · clear * - x7 x4 c10 c4
        first | assumption | (simp_all [State.cseg, State.seg, SharedBuffer.construct, Segment.created, zeroed]; done)
      · clear * - x8
        first | assumption | (simp_all [State.cseg, State.seg, SharedBuffer.construct, Segment.created, zeroed]; done)
      · assumption
      · clear * - x10 x9
        first | assumption | (simp_all [State.cseg, State.seg, SharedBuffer.construct, Segment.created, zeroed]; done))
  case map =>
    cases ok <;>
      simp only [consumer, State.seg, State.setBuf, catchClause, Option.some.injEq, if_true, if_false, Bool.false_eq_true] at hs <;>
      subst hs
    all_goals (
      refine ⟨?_, ?_, ?_, ?_, ?_, ?_, ?_, ?_, ?_, ?_⟩
      · assumption
      · assumption
      · clear * - x3
        simp_all [State.cseg, State.seg, SharedBuffer.construct, Segment.created, zeroed]; done
      · clear * - x4
        simp_all [State.cseg, State.seg, SharedBuffer.construct, Segment.created, zeroed]; done
      · assumption
      · assumption
      · assumption
      · assumption
      · assumption
      · assumption)
  case waiting | read | unlock =>
    obtain _ | _ | _ := shm
    · simp [consumer] at hs
    all_goals
      simp only [consumer, State.seg, State.setBuf, catchClause, Option.some.injEq, if_true, if_false, Bool.false_eq_true] at hs
      subst hs
    all_goals (
      refine ⟨?_, ?_, ?_, ?_, ?_, ?_, ?_, ?_, ?_, ?_⟩
      · assumption
      · clear * - x2
        first | assumption | (simp_all [State.cseg, State.seg, SharedBuffer.construct, Segment.created, zeroed]; done)
      · clear * - x3
        simp_all [State.cseg, State.seg, SharedBuffer.construct, Segment.created, zeroed]; done
      · clear * - x4
        simp_all [State.cseg, State.seg, SharedBuffer.construct, Segment.created, zeroed]; done
      · assumption
      · assumption
      · clear * - x7 x4 c10 c4
        first | assumption | (simp_all [State.cseg, State.seg, SharedBuffer.construct, Segment.created, zeroed]; done)
      · assumption
      · assumption
      · assumption)
  case check =>
    obtain _ | _ | _ := shm
    · simp [consumer] at hs
    · cases sflag <;>
        simp only [consumer, State.seg, State.setBuf, catchClause, Option.some.injEq, if_true, if_false, Bool.false_eq_true] at hs <;>
        subst hs
      all_goals (
        refine ⟨?_, ?_, ?_, ?_, ?_, ?_, ?_, ?_, ?_, ?_⟩
        · assumption
        · assumption
        · clear * - x3
          simp_all [State.cseg, State.seg, SharedBuffer.construct, Segment.created, zeroed]; done
        · clear * - x4
          simp_all [State.cseg, State.seg, SharedBuffer.construct, Segment.created, zeroed]; done
        · assumption
        · clear * - x6 x5 c1 c2 c4
          first | assumption | (simp_all [State.cseg, State.seg, SharedBuffer.construct, Segment.created, zeroed]; done)
        · assumption
        · assumption
        · assumption
        · assumption)
    · cases fflag <;>
        simp only [consumer, State.seg, State.setBuf, catchClause, Option.some.injEq, if_true, if_false, Bool.false_eq_true] at hs <;>
        subst hs
      all_goals (
        refine ⟨?_, ?_, ?_, ?_, ?_, ?_, ?_, ?_, ?_, ?_⟩
        · assumption
        · clear * - x2
          first | assumption | (simp_all [State.cseg, State.seg, SharedBuffer.construct, Segment.created, zeroed]; done)
        · clear * - x3
          simp_all [State.cseg, State.seg, SharedBuffer.construct, Segment.created, zeroed]; done
        · clear * - x4
          simp_all [State.cseg, State.seg, SharedBuffer.construct, Segment.created, zeroed]; done
        · assumption
        · clear * - x6 x5 c1 c2 c4
          first | assumption | (simp_all [State.cseg, State.seg, SharedBuffer.construct, Segment.created, zeroed]; done)
        · assumption
        · assumption
        · assumption
        · assumption)
  case relock =>
    obtain _ | _ | _ := shm
    · simp [consumer] at hs
    · obtain _ | w := smutex
      · simp only [consumer, State.seg, State.setBuf, catchClause, Option.some.injEq, if_true, if_false, Bool.false_eq_true] at hs
        subst hs
        all_goals (
          refine ⟨?_, ?_, ?_, ?_, ?_, ?_, ?_, ?_, ?_, ?_⟩
          · assumption
          · assumption
          · clear * - x3
            simp_all [State.cseg, State.seg, SharedBuffer.construct, Segment.created, zeroed]; done
          · clear * - x4
            simp_all [State.cseg, State.seg, SharedBuffer.construct, Segment.created, zeroed]; done
          · assumption
          · assumption
          · assumption
          · assumption
          · assumption
          · assumption)
      · simp [consumer, State.seg] at hs
    · obtain _ | w := fmutex
      · simp only [consumer, State.seg, State.setBuf, catchClause, Option.some.injEq, if_true, if_false, Bool.false_eq_true] at hs
        subst hs
        all_goals (
          refine ⟨?_, ?_, ?_, ?_, ?_, ?_, ?_, ?_, ?_, ?_⟩
          · assumption
          · clear * - x2
            simp_all [State.cseg, State.seg, SharedBuffer.construct, Segment.created, zeroed]; done
          · clear * - x3
            simp_all [State.cseg, State.seg, SharedBuffer.construct, Segment.created, zeroed]; done
          · clear * - x4
            simp_all [State.cseg, State.seg, SharedBuffer.construct, Segment.created, zeroed]; done
          · assumption
          · assumption
          · assumption
          · assumption
          · assumption
          · assumption)
      · simp [consumer, State.seg] at hs
  case lock =>
    obtain _ | _ | _ := shm
    · simp [consumer] at hs
    · obtain _ | w := smutex
      · simp only [consumer, State.seg, State.setBuf, catchClause, Option.some.injEq, if_true, if_false, Bool.false_eq_true] at hs
        subst hs
        all_goals (
          refine ⟨?_, ?_, ?_, ?_, ?_, ?_, ?_, ?_, ?_, ?_⟩
          · assumption
          · assumption
          · clear * - x3
            simp_all [State.cseg, State.seg, SharedBuffer.construct, Segment.created, zeroed]; done
          · clear * - x4
            simp_all [State.cseg, State.seg, SharedBuffer.construct, Segment.created, zeroed]; done
          · clear * - x5 c2 c4
            simp_all [State.cseg, State.seg, SharedBuffer.construct, Segment.created, zeroed]; done
          · clear * - x6 x5 c1 c2 c4
            simp_all [State.cseg, State.seg, SharedBuffer.construct, Segment.created, zeroed]; done
          · assumption
          · clear * - x8
            simp_all [State.cseg, State.seg, SharedBuffer.construct, Segment.created, zeroed]; done
          · assumption
          · assumption)
      · simp [consumer, State.seg] at hs
    · obtain _ | w := fmutex
      · simp only [consumer, State.seg, State.setBuf, catchClause, Option.some.injEq, if_true, if_false, Bool.false_eq_true] at hs
        subst hs
        all_goals (
          refine ⟨?_, ?_, ?_, ?_, ?_, ?_, ?_, ?_, ?_, ?_⟩
          · assumption
          · clear * - x2
            simp_all [State.cseg, State.seg, SharedBuffer.construct, Segment.created, zeroed]; done
          · clear * - x3
            simp_all [State.cseg, State.seg, SharedBuffer.construct, Segment.created, zeroed]; done
          · clear * - x4
            simp_all [State.cseg, State.seg, SharedBuffer.construct, Segment.created, zeroed]; done
          · clear * - x5 c2 c4
            simp_all [State.cseg, State.seg, SharedBuffer.construct, Segment.created, zeroed]; done
          · clear * - x6 x5 c1 c2 c4
            simp_all [State.cseg, State.seg, SharedBuffer.construct, Segment.created, zeroed]; done
          · assumption
          · clear * - x8
            simp_all [State.cseg, State.seg, SharedBuffer.construct, Segment.created, zeroed]; done
          · assumption
          · assumption)
      · simp [consumer, State.seg] at hs

theorem safeInv_consumer (sz : Nat) (ok : Bool) (late : Nat) (s t : State)
    (hc : ConsInv s.cons) (hy : SafeInv s) (hs : consumer sz ok late s = some t)
    (ht : t.earlyAccess = false) : SafeInv t := by
  obtain ⟨name, stale, fresh, ⟨ppc, i⟩, cons, k, ea, out, cat⟩ := s
  obtain ⟨cpc, connected, shm, opens, notFound, sleeps, clock, overslept, openedAt, mapFailed,
    waits, flagAtLock, received⟩ := cons
  obtain ⟨fsize, fbuilt, ⟨fmutex, fwait, fflag, fmsg⟩⟩ := fresh
  obtain ⟨ssize, sbuilt, ⟨smutex, swait, sflag, smsg⟩⟩ := stale
  obtain ⟨c1, c2, c3, c4, c5, c6, c7, c8, c9, c10, c11, c12, c13, c14⟩ := hc
  obtain ⟨y1, y2, y3, y4, y5⟩ := hy
  dsimp only at c1 c2 c3 c4 c5 c6 c7 c8 c9 c10 c11 c12 c13 c14 y1 y2 y3 y4 y5
  cases cpc
  case done | thrown => simp [consumer] at hs
  case start | connect | announce | handler | finish | remove =>
    simp only [consumer, Option.some.injEq] at hs
    subst hs
    all_goals (
      refine ⟨?_, ?_, ?_, ?_, ?_⟩
      · assumption
      · assumption
      · assumption
      · clear * - y4 c13
        simp_all [State.cseg, State.seg, SharedBuffer.construct, Segment.created, zeroed]; done
      · clear * - y5 y4
        simp_all [State.cseg, State.seg, SharedBuffer.construct, Segment.created, zeroed]; done)
  case loopTest =>
    cases connected <;>
      simp only [consumer, State.seg, State.setBuf, catchClause, Option.some.injEq, if_true, if_false, Bool.false_eq_true] at hs <;>
      subst hs
    all_goals (
      refine ⟨?_, ?_, ?_, ?_, ?_⟩
      · assumption
      · assumption
      · assumption
      · clear * - y4 c13
        simp_all [State.cseg, State.seg, SharedBuffer.construct, Segment.created, zeroed]; done
      · clear * - y5 y4
        simp_all [State.cseg, State.seg, SharedBuffer.construct, Segment.created, zeroed]; done)
  case openShm =>
    have hshm : shm = none := by
      by_contra hne
      exact (c10 hne).2.1 rfl
    subst hshm
    obtain _ | _ | _ := name <;>
      simp only [consumer, State.seg, State.setBuf, catchClause, Option.some.injEq, if_true, if_false, Bool.false_eq_true] at hs <;>
      subst hs
    all_goals (
      refine ⟨?_, ?_, ?_, ?_, ?_⟩
      · assumption
      · clear * - y2
        first | assumption | (simp_all [State.cseg, State.seg, SharedBuffer.construct, Segment.created, zeroed]; done)
      · clear * - y3
        first | assumption | (simp_all [State.cseg, State.seg, SharedBuffer.construct, Segment.created, zeroed]; done)
      · clear * - y4 c13
        simp_all [State.cseg, State.seg, SharedBuffer.construct, Segment.created, zeroed]; done
      · clear * - y5 y4
        simp_all [State.cseg, State.seg, SharedBuffer.construct, Segment.created, zeroed]; done)
  case map =>
    cases ok <;>
      simp only [consumer, State.seg, State.setBuf, catchClause, Option.some.injEq, if_true, if_false, Bool.false_eq_true] at hs <;>
      subst hs
    all_goals (
      refine ⟨?_, ?_, ?_, ?_, ?_⟩
      · assumption
      · assumption
      · assumption
      · clear * - y4 c13
        simp_all [State.cseg, State.seg, SharedBuffer.construct, Segment.created, zeroed]; done
      · clear * - y5 y4
        simp_all [State.cseg, State.seg, SharedBuffer.construct, Segment.created, zeroed]; done)
  case waiting | read | unlock =>
    obtain _ | _ | _ := shm
    · simp [consumer] at hs
    all_goals
      simp only [consumer, State.seg, State.setBuf, catchClause, Option.some.injEq, if_true, if_false, Bool.false_eq_true] at hs
      subst hs
    all_goals (
      refine ⟨?_, ?_, ?_, ?_, ?_⟩
      · clear * - y1 y3
        first | assumption | (simp_all [State.cseg, State.seg, SharedBuffer.construct, Segment.created, zeroed]; done)
      · clear * - y2
        first | assumption | (simp_all [State.cseg, State.seg, SharedBuffer.construct, Segment.created, zeroed]; done)
      · clear * - y3
        first | assumption | (simp_all [State.cseg, State.seg, SharedBuffer.construct, Segment.created, zeroed]; done)
      · clear * - y4 c13
        simp_all [State.cseg, State.seg, SharedBuffer.construct, Segment.created, zeroed]; done
      · clear * - y5 y4
        simp_all [State.cseg, State.seg, SharedBuffer.construct, Segment.created, zeroed]; done)
  case check =>
    obtain _ | _ | _ := shm
    · simp [consumer] at hs
    · cases sflag <;>
        simp only [consumer, State.seg, State.setBuf, catchClause, Option.some.injEq, if_true, if_false, Bool.false_eq_true] at hs <;>
        subst hs
      all_goals (
        refine ⟨?_, ?_, ?_, ?_, ?_⟩
        · assumption
        · assumption
        · clear * - y3
          first | assumption | (simp_all [State.cseg, State.seg, SharedBuffer.construct, Segment.created, zeroed]; done)
        · clear * - y4 c13
          simp_all [State.cseg, State.seg, SharedBuffer.construct, Segment.created, zeroed]; done
        · clear * - y5 y4
          first | (simp_all [State.cseg, State.seg, SharedBuffer.construct, Segment.created, zeroed]; done) | (by_cases hw : waits = 0 <;> simp_all [State.cseg, State.seg, SharedBuffer.construct, Segment.created, zeroed] <;> done))
    · cases fflag <;>
        simp only [consumer, State.seg, State.setBuf, catchClause, Option.some.injEq, if_true, if_false, Bool.false_eq_true] at hs <;>
        subst hs
      all_goals (
        refine ⟨?_, ?_, ?_, ?_, ?_⟩
        · clear * - y1 y3
          first | assumption | (simp_all [State.cseg, State.seg, SharedBuffer.construct, Segment.created, zeroed]; done)
        · assumption
        · clear * - y3
          first | assumption | (simp_all [State.cseg, State.seg, SharedBuffer.construct, Segment.created, zeroed]; done)
        · clear * - y4 c13
          simp_all [State.cseg, State.seg, SharedBuffer.construct, Segment.created, zeroed]; done
        · clear * - y5 y4
          first | (simp_all [State.cseg, State.seg, SharedBuffer.construct, Segment.created, zeroed]; done) | (by_cases hw : waits = 0 <;> simp_all [State.cseg, State.seg, SharedBuffer.construct, Segment.created, zeroed] <;> done))
  case relock =>
    obtain _ | _ | _ := shm
    · simp [consumer] at hs
    · obtain _ | w := smutex
      · simp only [consumer, State.seg, State.setBuf, catchClause, Option.some.injEq, if_true, if_false, Bool.false_eq_true] at hs
        subst hs
        all_goals (
          refine ⟨?_, ?_, ?_, ?_, ?_⟩
          · assumption
          · assumption
          · clear * - y3
            simp_all [State.cseg, State.seg, SharedBuffer.construct, Segment.created, zeroed]; done
          · clear * - y4 c13
            simp_all [State.cseg, State.seg, SharedBuffer.construct, Segment.created, zeroed]; done
          · clear * - y5 y4
            simp_all [State.cseg, State.seg, SharedBuffer.construct, Segment.created, zeroed]; done)
      · simp [consumer, State.seg] at hs
    · obtain _ | w := fmutex
      · simp only [consumer, State.seg, State.setBuf, catchClause, Option.some.injEq, if_true, if_false, Bool.false_eq_true] at hs
        subst hs
        all_goals (
          refine ⟨?_, ?_, ?_, ?_, ?_⟩
          · clear * - y1 y3
            simp_all [State.cseg, State.seg, SharedBuffer.construct, Segment.created, zeroed]; done
          · assumption
          · clear * - y3
            simp_all [State.cseg, State.seg, SharedBuffer.construct, Segment.created, zeroed]; done
          · clear * - y4 c13
            simp_all [State.cseg, State.seg, SharedBuffer.construct, Segment.created, zeroed]; done
          · clear * - y5 y4
            simp_all [State.cseg, State.seg, SharedBuffer.construct, Segment.created, zeroed]; done)
      · simp [consumer, State.seg] at hs
  case lock =>
    obtain _ | _ | _ := shm
    · simp [consumer] at hs
    · obtain _ | w := smutex
      · by_cases hb : ssize < sz ∨ sbuilt = false
        · simp only [consumer, State.seg, State.setBuf, catchClause, Option.some.injEq, if_true, if_false, Bool.false_eq_true, hb] at hs
          subst hs
          simp at ht
        · simp only [consumer, State.seg, State.setBuf, catchClause, Option.some.injEq, if_true, if_false, Bool.false_eq_true, hb] at hs
          subst hs
          all_goals (
            refine ⟨?_, ?_, ?_, ?_, ?_⟩
            · assumption
            · clear * - y2 hb
              simp_all [State.cseg, State.seg, SharedBuffer.construct, Segment.created, zeroed]; done
            · clear * - y3 hb
              simp_all [State.cseg, State.seg, SharedBuffer.construct, Segment.created, zeroed]; done
            · clear * - y4 c13 hb
              simp_all [State.cseg, State.seg, SharedBuffer.construct, Segment.created, zeroed]; done
            · clear * - y5 y4 hb
              simp_all [State.cseg, State.seg, SharedBuffer.construct, Segment.created, zeroed]; done)
      · simp [consumer, State.seg] at hs
    · obtain _ | w := fmutex
      · by_cases hb : fsize < sz ∨ fbuilt = false
        · simp only [consumer, State.seg, State.setBuf, catchClause, Option.some.injEq, if_true, if_false, Bool.false_eq_true, hb] at hs
          subst hs
          simp at ht
        · simp only [consumer, State.seg, State.setBuf, catchClause, Option.some.injEq, if_true, if_false, Bool.false_eq_true, hb] at hs
          subst hs
          all_goals (
            refine ⟨?_, ?_, ?_, ?_, ?_⟩
            · clear * - y1 y3 hb
              simp_all [State.cseg, State.seg, SharedBuffer.construct, Segment.created, zeroed]; done
            · clear * - y2 hb
              simp_all [State.cseg, State.seg, SharedBuffer.construct, Segment.created, zeroed]; done
            · clear * - y3 hb
              simp_all [State.cseg, State.seg, SharedBuffer.construct, Segment.created, zeroed]; done
            · clear * - y4 c13 hb
              simp_all [State.cseg, State.seg, SharedBuffer.construct, Segment.created, zeroed]; done
            · clear * - y5 y4 hb
              simp_all [State.cseg, State.seg, SharedBuffer.construct, Segment.created, zeroed]; done)
      · simp [consumer, State.seg] at hs

theorem producer_early (sz : Nat) (ok : Bool) (s t : State) (hs : producer sz ok s = some t) :
    t.earlyAccess = s.earlyAccess := by
  obtain ⟨-, -, -, -, -, -, -, -, -, f10⟩ := notify_one_frame s
  obtain ⟨name, stale, fresh, ⟨ppc, i⟩, cons, k, ea, out, cat⟩ := s
  cases ppc
  case notify =>
    simp only [producer, Option.some.injEq] at hs
    subst hs
    exact f10
  all_goals
    simp only [producer] at hs
    try split at hs
    all_goals
      first
      | (simp at hs; done)
      | (simp only [Option.some.injEq] at hs
         subst hs
         simp)

theorem consumer_early (sz : Nat) (ok : Bool) (late : Nat) (s t : State)
    (hs : consumer sz ok late s = some t) :
    (s.earlyAccess = true → t.earlyAccess = true) ∧
    (t.earlyAccess = true → s.earlyAccess = true ∨
      (s.cons.pc = .lock ∧ (s.cseg.size < sz ∨ s.cseg.constructed = false))) := by
  obtain ⟨name, stale, fresh, prod, cons, k, ea, out, cat⟩ := s
  obtain ⟨cpc, connected, shm, opens, notFound, sleeps, clock, overslept, openedAt, mapFailed,
    waits, flagAtLock, received⟩ := cons
  cases cpc <;> obtain _ | _ | _ := shm <;>
    simp only [consumer, State.setBuf, State.seg, catchClause] at hs <;>
    (try split at hs) <;> (try split at hs) <;>
    first
    | (simp at hs; done)
    | (simp only [Option.some.injEq] at hs
       subst hs
       simp_all [State.cseg, State.seg]
       done)
    | (simp only [Option.some.injEq] at hs
       subst hs
       simp only [State.cseg, State.seg]
       split <;> simp_all)

theorem inv_init (sz : Nat) (ns : Option Segment) : Inv sz (init ns) := by
  refine ⟨?_, ?_, ?_, ?_⟩
  · constructor <;> simp [init, PPc.built, PPc.sized, PPc.flagged, Producer.written, PPc.copied,
      Segment.created, zeroed]
  · constructor <;> simp [init, CPc.locked]
  · constructor <;> simp [init, PPc.created, PPc.critical, CPc.locked, CPc.holding,
      Segment.created, zeroed]
  · intro _
    constructor <;> simp [init, PPc.created, PPc.critical, CPc.locked, CPc.holding,
      Segment.created, zeroed]

theorem inv_step (sz : Nat) (s t : State) (a : Action) (h : Inv sz s)
    (hs : step sz s a = some t) : Inv sz t := by
  obtain ⟨hp, hc, hx, hy⟩ := h
  cases a with
  | producer ok =>
    have hs1 : producer sz ok s = some t := hs
    have hw : s.fresh.buf.data_ready = [] ∨ s.cons.pc = .waiting := by
      rcases hx.waiters with hw | hw
      · exact Or.inl hw
      · exact Or.inr hw.2.1
    refine ⟨prodInv_producer sz ok s t hp hs1, consInv_producer sz ok s t hc hw hs1,
      crossInv_producer sz ok s t hp hx hs1, ?_⟩
    intro ht
    rw [producer_early sz ok s t hs1] at ht
    exact safeInv_producer sz ok s t hp hx (hy ht) hs1
  | consumer ok late =>
    have hs1 : consumer sz ok late s = some t := hs
    refine ⟨prodInv_consumer sz ok late s t hp hs1, consInv_consumer sz ok late s t hc hs1,
      crossInv_consumer sz ok late s t hc hx hs1, ?_⟩
    intro ht
    have hse : s.earlyAccess = false := by
      cases he : s.earlyAccess with
      | false => rfl
      | true =>
        have := (consumer_early sz ok late s t hs1).1 he
        rw [ht] at this
        simp at this
    exact safeInv_consumer sz ok late s t hc (hy hse) hs1 ht

theorem inv_run (sz : Nat) (acts : List Action) (s t : State) (h : Inv sz s)
    (hr : run sz s acts = some t) : Inv sz t := by
  induction acts generalizing s with
  | nil =>
    simp only [run, Option.some.injEq] at hr
    subst hr
    exact h
  | cons a rest ih =>
    simp only [run] at hr
    cases hst : step sz s a with
    | none => simp [hst] at hr
    | some s1 =>
      simp only [hst] at hr
      exact ih s1 (inv_step sz s s1 a h hst) hr

theorem inv_reachable (sz : Nat) (ns : Option Segment) (s : State) (h : Reachable sz ns s) :
    Inv sz s := by
  obtain ⟨acts, hr⟩ := h
  exact inv_run sz acts (init ns) s (inv_init sz ns) hr

theorem run_append (sz : Nat) (xs ys : List Action) (s : State) :
    run sz s (xs ++ ys) = (run sz s xs).bind (fun t => run sz t ys) := by
  induction xs generalizing s with
  | nil => simp [run]
  | cons a rest ih =>
    simp only [List.cons_append, run]
    cases step sz s a with
    | none => simp
    | some s1 => simpa using ih s1

theorem reachable_run (sz : Nat) (ns : Option Segment) (s t : State) (acts : List Action)
    (h : Reachable sz ns s) (hr : run sz s acts = some t) : Reachable sz ns t := by
  obtain ⟨pre, hpre⟩ := h
  refine ⟨pre ++ acts, ?_⟩
  rw [run_append, hpre]
  simpa using hr

theorem producer_pc_mono (sz : Nat) (ok : Bool) (s t : State) (hs : producer sz ok s = some t) :
    (s.prod.pc.created = true → t.prod.pc.created = true) ∧
    (s.prod.pc.built = true → t.prod.pc.built = true) ∧
    (s.prod.pc.flagged = true → t.prod.pc.flagged = true) := by
  obtain ⟨name, stale, fresh, ⟨ppc, i⟩, cons, k, ea, out, cat⟩ := s
  cases ppc <;> simp only [producer] at hs <;> (try split at hs) <;>
    first
    | (simp at hs; done)
    | (simp only [Option.some.injEq] at hs
       subst hs
       simp [PPc.created, PPc.built, PPc.flagged]
       done)
    | (simp only [Option.some.injEq] at hs
       subst hs
       split <;> simp [PPc.created, PPc.built, PPc.flagged])

theorem absent_init : InvAbsent (init none) := by
  constructor <;> simp [init]

theorem producer_name (sz : Nat) (ok : Bool) (s t : State) (hs : producer sz ok s = some t) :
    t.name = s.name ∨ (s.prod.pc = .remove ∧ t.name = none) ∨
    (s.prod.pc = .create ∧ t.name = some .fresh) := by
  obtain ⟨-, f2, -, -, -, -, -, -, -, -⟩ := notify_one_frame s
  obtain ⟨name, stale, fresh, ⟨ppc, i⟩, cons, k, ea, out, cat⟩ := s
  cases ppc
  case notify =>
    simp only [producer, Option.some.injEq] at hs
    subst hs
    left
    exact f2
  all_goals
    simp only [producer] at hs
    try split at hs
    all_goals
      first
      | (simp at hs; done)
      | (simp only [Option.some.injEq] at hs
         subst hs
         simp)

theorem absent_producer (sz : Nat) (ok : Bool) (s t : State) (h : Inv sz s) (ha : InvAbsent s)
    (hs : producer sz ok s = some t) : InvAbsent t := by
  have hw : s.fresh.buf.data_ready = [] ∨ s.cons.pc = .waiting := by
    rcases h.cross.waiters with hw | hw
    · exact Or.inl hw
    · exact Or.inr hw.2.1
  have hcons := producer_cons sz ok s t hw hs
  have hshm : t.cons.shm = s.cons.shm := by
    rcases hcons with hc | ⟨-, hc⟩ <;> rw [hc]
  have hdone : t.cons.pc = .done → s.cons.pc = .done := by
    rcases hcons with hc | ⟨-, hc⟩ <;> rw [hc] <;> simp
  obtain ⟨a1, a2, a3⟩ := ha
  refine ⟨?_, ?_, ?_⟩
  · rcases producer_name sz ok s t hs with hn | ⟨-, hn⟩ | ⟨-, hn⟩ <;> rw [hn]
    · exact a1
    · simp
    · simp
  · rw [hshm]
    exact a2
  · intro hd
    have hd0 := hdone hd
    rcases producer_name sz ok s t hs with hn | ⟨-, hn⟩ | ⟨hpc, -⟩
    · rw [hn]
      exact a3 hd0
    · exact hn
    · exfalso
      have hx := h.cross.not_created (by rw [hpc]; rfl)
      have hne : s.cons.shm ≠ none := by
        intro hnone
        have := (h.cons.no_shm hnone).1
        rw [hd0] at this
        simp at this
      cases hsh : s.cons.shm with
      | none => exact hne hsh
      | some r =>
        cases r with
        | stale => exact a2 hsh
        | fresh => exact hx.2 hsh

theorem absent_consumer (sz : Nat) (ok : Bool) (late : Nat) (s t : State) (ha : InvAbsent s)
    (hs : consumer sz ok late s = some t) : InvAbsent t := by
  obtain ⟨a1, a2, a3⟩ := ha
  obtain ⟨name, stale, fresh, prod, cons, k, ea, out, cat⟩ := s
  obtain ⟨cpc, connected, shm, opens, notFound, sleeps, clock, overslept, openedAt, mapFailed,
    waits, flagAtLock, received⟩ := cons
  dsimp only at a1 a2 a3
  cases cpc <;> obtain _ | r := shm <;> obtain _ | n := name <;>
    simp only [consumer, catchClause] at hs <;>
    (try split at hs) <;> (try split at hs) <;>
    first
    | (simp at hs; done)
    | (simp only [Option.some.injEq] at hs
       subst hs
       constructor <;> (try cases r) <;> simp_all [State.setBuf])

theorem absent_run (sz : Nat) (acts : List Action) (s t : State) (h : Inv sz s)
    (ha : InvAbsent s) (hr : run sz s acts = some t) : InvAbsent t := by
  induction acts generalizing s with
  | nil =>
    simp only [run, Option.some.injEq] at hr
    subst hr
    exact ha
  | cons a rest ih =>
    simp only [run] at hr
    cases hst : step sz s a with
    | none => simp [hst] at hr
    | some s1 =>
      simp only [hst] at hr
      refine ih s1 (inv_step sz s s1 a h hst) ?_ hr
      cases a with
      | producer ok => exact absent_producer sz ok s s1 h ha hst
      | consumer ok late => exact absent_consumer sz ok late s s1 ha hst

theorem absent_reachable (sz : Nat) (s : State) (h : Reachable sz none s) : InvAbsent s := by
  obtain ⟨acts, hr⟩ := h
  exact absent_run sz acts (init none) s (inv_init sz none) absent_init hr

/-! ## Facts about the program points and the payload -/

theorem payload_eq : payload = ("Hello from producer!").toList.map Char.toNat := by
  rfl

theorem payload_length : payload.length = 20 ∧ literal.length = 21 ∧ 20 + 1 ≤ MESSAGE_SIZE := by
  decide

theorem flagged_copied (p : PPc) (h : p.flagged = true) : p.copied = true := by
  cases p <;> simp_all [PPc.flagged, PPc.copied]

set_option maxRecDepth 8000 in
theorem complete_message :
    literal.take 21 ++ List.replicate (MESSAGE_SIZE - 21) 0 = payload ++ 0 :: List.replicate 235 0 := by
  rfl

set_option maxRecDepth 8000 in
theorem cstr_complete : cstr (payload ++ 0 :: List.replicate 235 0) = payload := by
  rfl

theorem complete_length : (payload ++ 0 :: List.replicate 235 0).length = MESSAGE_SIZE := by
  rw [List.length_append, List.length_cons, List.length_replicate]
  rfl

set_option maxRecDepth 8000 in
theorem complete_take : (payload ++ 0 :: List.replicate 235 0).take 20 = payload := by
  rfl

set_option maxRecDepth 8000 in
theorem complete_nul : (payload ++ 0 :: List.replicate 235 0).getD 20 1 = 0 := by
  rfl

theorem message_of_flag (sz : Nat) (s : State) (h : Inv sz s) (hf : s.fresh.buf.has_data = true) :
    s.fresh.buf.message = payload ++ 0 :: List.replicate 235 0 := by
  have hfl : s.prod.pc.flagged = true := by
    rw [← h.prod.flag_eq]
    exact hf
  have hc := flagged_copied _ hfl
  have hm := h.prod.message_eq
  simp only [Producer.written, hc, if_true] at hm
  rw [hm]
  exact complete_message

theorem cseg_fresh (s : State) (hf : s.cons.shm = some .fresh) : s.cseg = s.fresh := by
  simp [State.cseg, State.seg, hf]

theorem consumer_pc (sz : Nat) (ok : Bool) (late : Nat) (s t : State)
    (hs : consumer sz ok late s = some t) :
    (t.cons.pc = .read → s.cons.pc = .check ∧ s.cseg.buf.has_data = true) ∧
    (s.cons.pc = .waiting → t.cons.pc = .relock) ∧
    (s.cons.pc = .relock → t.cons.pc = .check) ∧
    (s.cons.pc = .check → s.cseg.buf.has_data = false →
      t.cons.pc = .waiting ∧ t.cons.received = s.cons.received ∧
      t.cons.waits = s.cons.waits + 1) ∧
    (s.cons.pc = .check → s.cseg.buf.has_data = true →
      t.cons.pc = .read ∧ t.cons.waits = s.cons.waits) := by
  obtain ⟨name, stale, fresh, prod, cons, k, ea, out, cat⟩ := s
  obtain ⟨cpc, connected, shm, opens, notFound, sleeps, clock, overslept, openedAt, mapFailed,
    waits, flagAtLock, received⟩ := cons
  cases cpc <;> obtain _ | _ | _ := shm <;>
    simp only [consumer, State.setBuf, State.seg, catchClause] at hs <;>
    (try split at hs) <;> (try split at hs) <;>
    first
    | (simp at hs; done)
    | (simp only [Option.some.injEq] at hs
       subst hs
       simp_all [State.cseg, State.seg])

theorem consumer_check_enabled (sz : Nat) (ok : Bool) (late : Nat) (s : State)
    (hp : s.cons.pc = .check) (hn : s.cons.shm ≠ none) : ∃ t, consumer sz ok late s = some t := by
  obtain ⟨name, stale, fresh, prod, cons, k, ea, out, cat⟩ := s
  obtain ⟨cpc, connected, shm, opens, notFound, sleeps, clock, overslept, openedAt, mapFailed,
    waits, flagAtLock, received⟩ := cons
  dsimp only at hp hn
  subst hp
  obtain _ | r := shm
  · exact absurd rfl hn
  · simp only [consumer]
    split <;> exact ⟨_, rfl⟩

theorem shm_of_locked (c : Consumer) (h : ConsInv c) (hp : c.pc.locked = true) :
    c.shm ≠ none := by
  intro hn
  have := (h.no_shm hn).1
  rcases this with e | e | e | e <;> rw [e] at hp <;> simp [CPc.locked] at hp

theorem holdsMutex_consumer (sz : Nat) (s : State) (h : Inv sz s) (he : s.earlyAccess = false)
    (hp : s.cons.pc.holding = true) : s.holdsMutex .consumer = true := by
  have hl : s.cons.pc.locked = true := by
    revert hp
    cases s.cons.pc <;> simp [CPc.holding, CPc.locked]
  have h1 := shm_of_locked s.cons h.cons hl
  have h2 := (h.safe he).hold hp
  simp [State.holdsMutex, h1, h2]
/-! ## The claims

"Every interleaving" ranges over the runs of `step` from the start of `main`:
all schedules of the two threads, all outcomes of the mapping calls, all
durations of the sleeps, wakeups at any time. -/

/-- C1 (payload integrity).  In every interleaving of `producer()` and
`consumer()`: whenever `has_data` of the segment the producer created is
true, its `message` holds the 20 bytes of "Hello from producer!" followed by
the NUL at index 20, inside the 256-byte buffer; and when the consumer works
on that segment, it stands at its read step (line 64) only with `has_data`
true and the complete message in the buffer, and the text it reads there is
exactly the payload. -/
theorem payload_integrity (sz : Nat) (ns : Option Segment) (s : State)
    (h : Reachable sz ns s) :
    (s.fresh.buf.has_data = true →
      s.fresh.buf.message = payload ++ 0 :: List.replicate 235 0 ∧
      s.fresh.buf.message.length = MESSAGE_SIZE ∧
      s.fresh.buf.message.take 20 = payload ∧
      s.fresh.buf.message.getD 20 1 = 0 ∧
      cstr s.fresh.buf.message = payload) ∧
    (s.cons.shm = some .fresh →
      (s.cons.pc = .read →
        s.fresh.buf.has_data = true ∧ cstr s.fresh.buf.message = payload) ∧
      (∀ r, s.cons.received = some r → r = payload)) := by
  have hi := inv_reachable sz ns s h
  refine ⟨?_, ?_⟩
  · intro hd
    have hm := message_of_flag sz s hi hd
    rw [hm]
    exact ⟨rfl, complete_length, complete_take, complete_nul, cstr_complete⟩
  · intro hf
    have hcs := cseg_fresh s hf
    refine ⟨?_, ?_⟩
    · intro hp
      have hd := hi.cross.read_flag hp
      rw [hcs] at hd
      refine ⟨hd, ?_⟩
      rw [message_of_flag sz s hi hd]
      exact cstr_complete
    · intro r hr
      obtain ⟨-, hr2, hr3⟩ := hi.cross.received_eq r hr
      rw [hcs] at hr2 hr3
      rw [hr2, message_of_flag sz s hi hr3]
      exact cstr_complete

/-- The handshake run: the consumer has read the payload from the segment the
producer created. -/
theorem payload_integrity_witness :
    Reachable exampleSize none (stateAfter exampleSize none handshake) ∧
    (stateAfter exampleSize none handshake).cons.shm = some .fresh ∧
    (stateAfter exampleSize none handshake).cons.received = some payload ∧
    (∀ r, (stateAfter exampleSize none handshake).cons.received = some r → r = payload) :=
  ⟨⟨handshake, rfl⟩, rfl, rfl,
    ((payload_integrity exampleSize none (stateAfter exampleSize none handshake)
      ⟨handshake, rfl⟩).2 rfl).2⟩

/-- C2 as stated fails: the consumer opens, maps and locks the segment
between lines 25 and 28 of the producer; the placement new of line 28 then
initialises the mutex again, the producer takes it, copies the message and
sets the flag; the consumer, whose first loop test now finds the flag true,
stands before the read of line 64 while the mutex is owned by the producer,
inside its locked scope, and the read can be taken. -/
theorem no_lost_or_spurious_wakeup_counterexample :
    Reachable exampleSize none (stateAfter exampleSize none earlyLockRead) ∧
    (stateAfter exampleSize none earlyLockRead).cons.pc = .read ∧
    (stateAfter exampleSize none earlyLockRead).cons.shm = some .fresh ∧
    (stateAfter exampleSize none earlyLockRead).fresh.buf.has_data = true ∧
    (stateAfter exampleSize none earlyLockRead).prod.pc = .notify ∧
    (stateAfter exampleSize none earlyLockRead).fresh.buf.mutex = some .producer ∧
    (stateAfter exampleSize none earlyLockRead).holdsMutex .consumer = false ∧
    (step exampleSize (stateAfter exampleSize none earlyLockRead) (.consumer true 0)).isSome
      = true ∧
    ¬ (∀ s, Reachable exampleSize none s → s.cons.pc = .read →
        s.cseg.buf.has_data = true ∧ s.holdsMutex .consumer = true) := by
  refine ⟨⟨earlyLockRead, rfl⟩, rfl, rfl, rfl, rfl, rfl, rfl, rfl, ?_⟩
  intro hall
  have := (hall _ ⟨earlyLockRead, rfl⟩ rfl).2
  exact absurd this (by decide)

/-- C2 (no lost or spurious wakeup), amended.  In every interleaving, so for
every sequence of wakeups of the condition wait: the consumer stands at its
read step only in a state where `has_data` is true, and it owns the mutex
there in every run in which its lock of line 58 was taken on a sized and
constructed buffer; the read step is entered only from the loop test of line
60 and only when that test finds `has_data` true; and a loop test that finds
`has_data` false puts the consumer back into `wait` without anything having
been read. -/
theorem no_lost_or_spurious_wakeup (sz : Nat) (ns : Option Segment) (s : State)
    (h : Reachable sz ns s) :
    (s.cons.pc = .read → s.cseg.buf.has_data = true) ∧
    (s.earlyAccess = false → s.cons.pc = .read → s.holdsMutex .consumer = true) ∧
    (∀ a t, step sz s a = some t → t.cons.pc = .read → s.cons.pc ≠ .read →
      a.role = .consumer ∧ s.cons.pc = .check ∧ s.cseg.buf.has_data = true ∧
      (s.earlyAccess = false → s.holdsMutex .consumer = true)) ∧
    (s.cons.pc = .check → s.cseg.buf.has_data = false → ∀ ok late,
      ∃ t, consumer sz ok late s = some t ∧ t.cons.pc = .waiting ∧
        t.cons.received = s.cons.received ∧ t.cons.waits = s.cons.waits + 1) ∧
    (s.cons.pc = .waiting → ∀ ok late t, consumer sz ok late s = some t →
      t.cons.pc = .relock) ∧
    (s.cons.pc = .relock → ∀ ok late t, consumer sz ok late s = some t →
      t.cons.pc = .check) := by
  have hi := inv_reachable sz ns s h
  refine ⟨hi.cross.read_flag, ?_, ?_, ?_, ?_, ?_⟩
  · intro he hp
    exact holdsMutex_consumer sz s hi he (by rw [hp]; rfl)
  · intro a t hs ht hne
    cases a with
    | producer ok =>
      exfalso
      have hs1 : producer sz ok s = some t := hs
      have hw : s.fresh.buf.data_ready = [] ∨ s.cons.pc = .waiting := by
        rcases hi.cross.waiters with hw | hw
        · exact Or.inl hw
        · exact Or.inr hw.2.1
      rcases producer_cons sz ok s t hw hs1 with hc | ⟨-, hc⟩
      · rw [hc] at ht
        exact hne ht
      · rw [hc] at ht
        simp at ht
    | consumer ok late =>
      have hs1 : consumer sz ok late s = some t := hs
      obtain ⟨hpc, hfl⟩ := (consumer_pc sz ok late s t hs1).1 ht
      exact ⟨rfl, hpc, hfl, fun he => holdsMutex_consumer sz s hi he (by rw [hpc]; rfl)⟩
  · intro hp hfl ok late
    have hn := shm_of_locked s.cons hi.cons (by rw [hp]; rfl)
    obtain ⟨t, ht⟩ := consumer_check_enabled sz ok late s hp hn
    exact ⟨t, ht, (consumer_pc sz ok late s t ht).2.2.2.1 hp hfl⟩
  · intro hp ok late t ht
    exact (consumer_pc sz ok late s t ht).2.1 hp
  · intro hp ok late t ht
    exact (consumer_pc sz ok late s t ht).2.2.1 hp

/-- The consumer waits first, wakes up once with the flag still false, waits
again and is woken by the notification. -/
theorem no_lost_or_spurious_wakeup_witness :
    Reachable exampleSize none (stateAfter exampleSize none waitFirst) ∧
    (stateAfter exampleSize none waitFirst).cons.pc = .read ∧
    (stateAfter exampleSize none waitFirst).cons.waits = 2 ∧
    (stateAfter exampleSize none waitFirst).earlyAccess = false ∧
    (stateAfter exampleSize none waitFirst).cseg.buf.has_data = true ∧
    (stateAfter exampleSize none waitFirst).holdsMutex .consumer = true :=
  ⟨⟨waitFirst, rfl⟩, rfl, rfl, rfl,
    (no_lost_or_spurious_wakeup exampleSize none (stateAfter exampleSize none waitFirst)
      ⟨waitFirst, rfl⟩).1 rfl,
    (no_lost_or_spurious_wakeup exampleSize none (stateAfter exampleSize none waitFirst)
      ⟨waitFirst, rfl⟩).2.1 rfl rfl⟩

/-- C10 as stated fails: the consumer takes the mutex of line 58 between
lines 25 and 28 of the producer, with `has_data` false; the placement new
initialises the mutex again, the producer takes it and sets the flag before
the consumer makes its first loop test; the consumer leaves the loop without
a single `wait` although the flag was false when it took the mutex. -/
theorem notify_before_wait_counterexample :
    Reachable exampleSize none (stateAfter exampleSize none earlyLockRead) ∧
    (stateAfter exampleSize none earlyLockRead).cons.flagAtLock = some false ∧
    (stateAfter exampleSize none earlyLockRead).cons.waits = 0 ∧
    (stateAfter exampleSize none earlyLockRead).cons.pc = .read ∧
    (stateAfter exampleSize none earlyLockRead).earlyAccess = true ∧
    ¬ (∀ s b, Reachable exampleSize none s → s.cons.flagAtLock = some b →
        s.cons.pc = .read → (s.cons.waits = 0 ↔ b = true)) := by
  refine ⟨⟨earlyLockRead, rfl⟩, rfl, rfl, rfl, rfl, ?_⟩
  intro hall
  have := (hall _ false ⟨earlyLockRead, rfl⟩ rfl rfl).1 rfl
  exact absurd this (by decide)

/-- C10 (notify before wait), amended.  In every interleaving: when
`has_data` is already true as the consumer takes the mutex at line 58, the
flag stays true, the consumer has called `wait` zero times, and from the loop
test its next statement is the read of line 64; and in every run in which
that lock was taken on a sized and constructed buffer, once the consumer has
left the wait loop the number of its `wait` calls is zero exactly when
`has_data` was true as it took the mutex. -/
theorem notify_before_wait (sz : Nat) (ns : Option Segment) (s : State)
    (h : Reachable sz ns s) :
    (s.cons.flagAtLock = some true → s.cons.waits = 0) ∧
    (s.cons.flagAtLock = some true → s.cseg.buf.has_data = true) ∧
    (s.cons.flagAtLock = some true → s.cons.pc = .check → ∀ ok late,
      ∃ t, consumer sz ok late s = some t ∧ t.cons.pc = .read ∧ t.cons.waits = 0) ∧
    (s.earlyAccess = false → ∀ b, s.cons.flagAtLock = some b →
      s.cons.pc = .read ∨ s.cons.received ≠ none → (s.cons.waits = 0 ↔ b = true)) := by
  have hi := inv_reachable sz ns s h
  have hw := hi.cross.flag_true
  refine ⟨hw, hi.cross.flag_kept, ?_, ?_⟩
  · intro hf hp ok late
    have hfl := hi.cross.flag_kept hf
    have hn := shm_of_locked s.cons hi.cons (by rw [hp]; rfl)
    obtain ⟨t, ht⟩ := consumer_check_enabled sz ok late s hp hn
    obtain ⟨h1, h2⟩ := (consumer_pc sz ok late s t ht).2.2.2.2 hp hfl
    exact ⟨t, ht, h1, by rw [h2]; exact hw hf⟩
  · intro he b hb hp
    have hnc : ¬ (s.cons.pc = .announce ∨ s.cons.pc = .check) := by
      rcases hp with hp | hp
      · rw [hp]
        simp
      · have := (hi.cons.received_pc hp).1
        rcases this with e | e | e | e | e <;> rw [e] <;> simp
    cases b with
    | true => simp [hw hb]
    | false =>
      constructor
      · intro hz
        exact absurd ((hi.safe he).flag_false hb hz) hnc
      · intro hft
        simp at hft

/-- The producer has finished before the consumer takes the mutex. -/
theorem notify_before_wait_witness :
    Reachable exampleSize none (stateAfter exampleSize none handshake) ∧
    (stateAfter exampleSize none handshake).cons.flagAtLock = some true ∧
    (stateAfter exampleSize none handshake).cons.received ≠ none ∧
    (stateAfter exampleSize none handshake).earlyAccess = false ∧
    (stateAfter exampleSize none handshake).cons.waits = 0 ∧
    ((stateAfter exampleSize none handshake).cons.waits = 0 ↔ true = true) :=
  ⟨⟨handshake, rfl⟩, rfl, by decide, rfl,
    (notify_before_wait exampleSize none (stateAfter exampleSize none handshake)
      ⟨handshake, rfl⟩).1 rfl,
    (notify_before_wait exampleSize none (stateAfter exampleSize none handshake)
      ⟨handshake, rfl⟩).2.2.2 rfl true rfl (Or.inr (by decide))⟩

theorem rises_cons (x y : Bool) (l : List Bool) :
    rises (x :: y :: l) = (if x = false ∧ y = true then 1 else 0) + rises (y :: l) := by
  cases x <;> cases y <;> simp [rises] <;> omega

theorem falls_cons (x y : Bool) (l : List Bool) :
    falls (x :: y :: l) = (if x = true ∧ y = false then 1 else 0) + falls (y :: l) := by
  cases x <;> cases y <;> simp [falls] <;> omega

theorem states_head (sz : Nat) (s : State) (acts : List Action) :
    ∃ rest, states sz s acts = s :: rest := by
  cases acts with
  | nil => exact ⟨[], rfl⟩
  | cons a l =>
    simp only [states]
    cases step sz s a with
    | none => exact ⟨[], rfl⟩
    | some s1 => exact ⟨_, rfl⟩

theorem flag_step (sz : Nat) (s t : State) (a : Action) (h : Inv sz s)
    (hs : step sz s a = some t) (hf : s.fresh.buf.has_data = true) :
    t.fresh.buf.has_data = true := by
  have ht := inv_step sz s t a h hs
  cases a with
  | producer ok =>
    have hs1 : producer sz ok s = some t := hs
    rw [ht.prod.flag_eq]
    rw [h.prod.flag_eq] at hf
    exact (producer_pc_mono sz ok s t hs1).2.2 hf
  | consumer ok late =>
    have hs1 : consumer sz ok late s = some t := hs
    obtain ⟨-, -, -, -, f5, -, -, -⟩ := consumer_frame sz ok late s t hs1
    rw [f5]
    exact hf

theorem flags_mono (sz : Nat) (acts : List Action) (s : State) (h : Inv sz s) :
    falls ((states sz s acts).map (fun u => u.fresh.buf.has_data)) = 0 ∧
    rises ((states sz s acts).map (fun u => u.fresh.buf.has_data)) ≤
      (if s.fresh.buf.has_data = true then 0 else 1) ∧
    ∀ u ∈ states sz s acts, Inv sz u := by
  induction acts generalizing s with
  | nil =>
    simp only [states, List.map, List.mem_singleton]
    refine ⟨by simp [falls], ?_, ?_⟩
    · simp [rises]
    · intro u hu
      rw [hu]
      exact h
  | cons a l ih =>
    simp only [states]
    cases hst : step sz s a with
    | none =>
      simp only [List.map, List.mem_singleton]
      refine ⟨by simp [falls], ?_, ?_⟩
      · simp [rises]
      · intro u hu
        rw [hu]
        exact h
    | some s1 =>
      have h1 := inv_step sz s s1 a h hst
      obtain ⟨i1, i2, i3⟩ := ih s1 h1
      obtain ⟨rest, hrest⟩ := states_head sz s1 l
      rw [hrest] at i1 i2 i3
      simp only [hrest, List.map_cons] at i1 i2 ⊢
      rw [falls_cons, rises_cons]
      refine ⟨?_, ?_, ?_⟩
      · rw [i1]
        by_cases hf : s.fresh.buf.has_data = true
        · simp [flag_step sz s s1 a h hst hf]
        · simp [hf]
      · by_cases hf : s.fresh.buf.has_data = true
        · have hf1 := flag_step sz s s1 a h hst hf
          simp only [hf1, if_true] at i2
          rw [hf1, hf]
          simp
          omega
        · have hf0 : s.fresh.buf.has_data = false := by simpa using hf
          simp only [hf0]
          split at i2 <;> simp_all
      · intro u hu
        rcases List.mem_cons.1 hu with hu | hu
        · rw [hu]
          exact h
        · exact i3 u hu

/-- C3 (readiness monotonicity).  Along every interleaving from the start of
`main`, the flag of the segment the producer creates starts false, changes
from false to true at most once and never from true to false; and wherever
it is true the producer has finished `strcpy` and `message` holds the
complete payload. -/
theorem readiness_monotone (sz : Nat) (ns : Option Segment) (acts : List Action) :
    ((states sz (init ns) acts).map (fun u => u.fresh.buf.has_data)).head? = some false ∧
    rises ((states sz (init ns) acts).map (fun u => u.fresh.buf.has_data)) ≤ 1 ∧
    falls ((states sz (init ns) acts).map (fun u => u.fresh.buf.has_data)) = 0 ∧
    (∀ u ∈ states sz (init ns) acts, u.fresh.buf.has_data = true →
      u.prod.pc.copied = true ∧
      u.fresh.buf.message = payload ++ 0 :: List.replicate 235 0) ∧
    (∀ s a t, Reachable sz ns s → step sz s a = some t → s.fresh.buf.has_data = true →
      t.fresh.buf.has_data = true) := by
  obtain ⟨m1, m2, m3⟩ := flags_mono sz acts (init ns) (inv_init sz ns)
  obtain ⟨rest, hrest⟩ := states_head sz (init ns) acts
  refine ⟨?_, ?_, m1, ?_, ?_⟩
  · rw [hrest]
    rfl
  · have : (init ns).fresh.buf.has_data = false := rfl
    simp only [this] at m2
    exact m2
  · intro u hu hf
    have hi := m3 u hu
    refine ⟨flagged_copied _ ?_, message_of_flag sz u hi hf⟩
    rw [← hi.prod.flag_eq]
    exact hf
  · intro s a t hr hs hf
    exact flag_step sz s t a (inv_reachable sz ns s hr) hs hf

theorem holdsMutex_producer (sz : Nat) (s : State) (h : Inv sz s) (he : s.earlyAccess = false) :
    s.holdsMutex .producer = s.prod.pc.critical := by
  cases hc : s.prod.pc.critical
  · have : ¬ s.fresh.buf.mutex = some .producer := by
      intro hx
      have := h.cross.mutex_only hx
      rw [hc] at this
      simp at this
    simp [State.holdsMutex, this]
  · simp [State.holdsMutex, (h.safe he).mutex_crit hc]

theorem construct_unlocked (sz : Nat) (s : State) (h : Inv sz s) (hp : s.prod.pc = .construct) :
    s.holdsMutex .producer = false := by
  have : ¬ s.fresh.buf.mutex = some .producer := by
    intro hx
    have := h.cross.mutex_only hx
    rw [hp] at this
    simp at this
  simp [State.holdsMutex, this]

/-- C4 as stated fails, in two ways.  The placement new of line 28 runs the
constructor of line 18, which writes `has_data`, and the producer does not
own the mutex there (the mutex is only being constructed).  And when the
consumer has taken its lock of line 58 between lines 25 and 28 of the
producer, the placement new initialises the mutex again, so that the consumer
makes its loop test of line 60, a read of `has_data`, without owning it. -/
theorem lock_discipline_counterexample :
    Reachable exampleSize none (stateAfter exampleSize none beforeConstruct) ∧
    (stateAfter exampleSize none beforeConstruct).prod.pc = .construct ∧
    (step exampleSize (stateAfter exampleSize none beforeConstruct) (.producer true)).isSome = true ∧
    touchesData (stateAfter exampleSize none beforeConstruct) (.producer true) = true ∧
    (stateAfter exampleSize none beforeConstruct).holdsMutex .producer = false ∧
    Reachable exampleSize none (stateAfter exampleSize none earlyLockCheck) ∧
    (stateAfter exampleSize none earlyLockCheck).cons.pc = .check ∧
    (stateAfter exampleSize none earlyLockCheck).fresh.buf.mutex = none ∧
    (step exampleSize (stateAfter exampleSize none earlyLockCheck) (.consumer true 0)).isSome
      = true ∧
    touchesData (stateAfter exampleSize none earlyLockCheck) (.consumer true 0) = true ∧
    (stateAfter exampleSize none earlyLockCheck).holdsMutex .consumer = false ∧
    ¬ (∀ s a t, Reachable exampleSize none s → step exampleSize s a = some t →
        touchesData s a = true → s.holdsMutex a.role = true) := by
  refine ⟨⟨beforeConstruct, rfl⟩, rfl, rfl, rfl, rfl, ⟨earlyLockCheck, rfl⟩, rfl, rfl, rfl, rfl,
    rfl, ?_⟩
  intro hall
  have := hall (stateAfter exampleSize none beforeConstruct) (.producer true) _
    ⟨beforeConstruct, rfl⟩ rfl rfl
  exact absurd this (by decide)

/-- C4 (lock discipline), amended.  In every interleaving in which the
consumer has not taken its lock of line 58 on a segment that was not yet
sized or constructed, every statement of `producer()` or `consumer()` that
reads or writes `has_data` or `message` is executed while the acting role
owns the mutex, except the constructor run by the placement new of line 28:
its initialising write of `has_data` is made, in every interleaving, while
the producer does not own the mutex. -/
theorem lock_discipline (sz : Nat) (ns : Option Segment) (s t : State) (a : Action)
    (h : Reachable sz ns s) (hs : step sz s a = some t) (hd : touchesData s a = true) :
    (s.earlyAccess = false →
      s.holdsMutex a.role = true ∨ (a.role = .producer ∧ s.prod.pc = .construct)) ∧
    (s.prod.pc = .construct → s.holdsMutex .producer = false) := by
  have hi := inv_reachable sz ns s h
  refine ⟨?_, construct_unlocked sz s hi⟩
  intro he
  cases a with
  | producer ok =>
    simp only [touchesData, Bool.decide_or, Bool.or_eq_true, decide_eq_true_eq] at hd
    rcases hd with hd | hd | hd
    · exact Or.inr ⟨rfl, hd⟩
    · left
      rw [Action.role, holdsMutex_producer sz s hi he, hd]
      rfl
    · left
      rw [Action.role, holdsMutex_producer sz s hi he, hd]
      rfl
  | consumer ok late =>
    left
    simp only [touchesData, Bool.decide_or, Bool.or_eq_true, decide_eq_true_eq] at hd
    apply holdsMutex_consumer sz s hi he
    rcases hd with hd | hd <;> rw [hd] <;> rfl

/-- The producer copies the second byte of the message under the mutex. -/
theorem lock_discipline_witness :
    Reachable exampleSize none (stateAfter exampleSize none (producerSteps 8)) ∧
    step exampleSize (stateAfter exampleSize none (producerSteps 8)) (.producer true) =
      some (stateAfter exampleSize none (producerSteps 9)) ∧
    touchesData (stateAfter exampleSize none (producerSteps 8)) (.producer true) = true ∧
    (stateAfter exampleSize none (producerSteps 8)).earlyAccess = false ∧
    (stateAfter exampleSize none (producerSteps 8)).holdsMutex .producer = true :=
  ⟨⟨producerSteps 8, rfl⟩, rfl, rfl, rfl,
    ((lock_discipline exampleSize none (stateAfter exampleSize none (producerSteps 8))
      (stateAfter exampleSize none (producerSteps 9)) (.producer true)
      ⟨producerSteps 8, rfl⟩ rfl rfl).1 rfl).resolve_right (by decide)⟩

theorem built_sized (p : PPc) (h : p.built = true) : p.sized = true := by
  cases p <;> simp_all [PPc.built, PPc.sized]

theorem built_created (p : PPc) (h : p.built = true) : p.created = true := by
  cases p <;> simp_all [PPc.built, PPc.created]

theorem critical_built (p : PPc) (h : p = .lock ∨ p.critical = true) : p.built = true := by
  rcases h with h | h
  · rw [h]
    rfl
  · cases p <;> simp_all [PPc.built, PPc.critical]

theorem producer_constructions (sz : Nat) (ok : Bool) (s t : State)
    (hs : producer sz ok s = some t) :
    t.constructions = s.constructions + (if s.prod.pc = .construct then 1 else 0) ∧
    (t.prod.pc = .construct → s.prod.pc = .map ∧ ok = true) := by
  obtain ⟨-, -, f3, -, -, -, -, -, -, -⟩ := notify_one_frame s
  obtain ⟨name, stale, fresh, ⟨ppc, i⟩, cons, k, ea, out, cat⟩ := s
  cases ppc
  case notify =>
    simp only [producer, Option.some.injEq] at hs
    subst hs
    simpa using f3
  all_goals
    simp only [producer] at hs
    try split at hs
    all_goals
      first
      | (simp at hs; done)
      | (simp only [Option.some.injEq] at hs
         subst hs
         simp
         done)
      | (simp only [Option.some.injEq] at hs
         subst hs
         simp_all
         done)
      | (simp only [Option.some.injEq] at hs
         subst hs
         split <;> simp)

theorem absent_unopened (sz : Nat) (s : State) (h : Inv sz s) (hb : s.prod.pc.built = true)
    (hc : s.cons.shm = none) : InvAbsent s := by
  refine ⟨h.prod.name_created (built_created _ hb), ?_, ?_⟩
  · rw [hc]
    simp
  · intro hd
    have := (h.cons.no_shm hc).1
    rw [hd] at this
    simp at this

theorem late_step (sz : Nat) (s t : State) (a : Action) (h : Inv sz s) (ha : InvAbsent s)
    (hb : s.prod.pc.built = true) (he : s.earlyAccess = false) (hs : step sz s a = some t) :
    t.prod.pc.built = true ∧ t.earlyAccess = false := by
  cases a with
  | producer ok =>
    have hs1 : producer sz ok s = some t := hs
    exact ⟨(producer_pc_mono sz ok s t hs1).2.1 hb, by rw [producer_early sz ok s t hs1, he]⟩
  | consumer ok late =>
    have hs1 : consumer sz ok late s = some t := hs
    refine ⟨by rw [(consumer_frame sz ok late s t hs1).1]; exact hb, ?_⟩
    cases hte : t.earlyAccess with
    | false => rfl
    | true =>
      exfalso
      rcases (consumer_early sz ok late s t hs1).2 hte with h1 | ⟨hpc, hbad⟩
      · rw [he] at h1
        simp at h1
      · have hf : s.cons.shm = some .fresh := by
          cases hsh : s.cons.shm with
          | none =>
            have := (h.cons.no_shm hsh).1
            rw [hpc] at this
            simp at this
          | some r =>
            cases r with
            | stale => exact absurd hsh ha.shm_fresh
            | fresh => rfl
        rw [cseg_fresh s hf, h.prod.size_eq (built_sized _ hb), h.prod.built_eq, hb] at hbad
        simp at hbad

theorem late_run (sz : Nat) (acts : List Action) (s t : State) (h : Inv sz s)
    (ha : InvAbsent s) (hb : s.prod.pc.built = true) (he : s.earlyAccess = false)
    (hr : run sz s acts = some t) :
    Inv sz t ∧ InvAbsent t ∧ t.prod.pc.built = true ∧ t.earlyAccess = false := by
  induction acts generalizing s with
  | nil =>
    simp only [run, Option.some.injEq] at hr
    subst hr
    exact ⟨h, ha, hb, he⟩
  | cons a rest ih =>
    have hr0 := hr
    simp only [run] at hr
    cases hst : step sz s a with
    | none => simp [hst] at hr
    | some s1 =>
      simp only [hst] at hr
      obtain ⟨hb1, he1⟩ := late_step sz s s1 a h ha hb he hst
      have ha1 : InvAbsent s1 := absent_run sz [a] s s1 h ha (by simp [run, hst])
      exact ih s1 (inv_step sz s s1 a h hst) ha1 hb1 he1 hr

/-- C5 as stated fails: after the producer has created and sized the segment
and before it constructs the buffer (lines 24-25 done, line 28 not), the
consumer opens the segment, maps it and takes the mutex of line 58 in memory
in which no `SharedBuffer` has been constructed.  And when the mapping of
line 26 fails, `producer()` ends with no buffer constructed at all. -/
theorem initialise_before_access_counterexample :
    (stateAfter exampleSize none (producerSteps 3 ++ [Action.producer false])).prod.pc
      = .thrown ∧
    (stateAfter exampleSize none (producerSteps 3 ++ [Action.producer false])).constructions
      = 0 ∧
    Reachable exampleSize none (stateAfter exampleSize none earlyLock) ∧
    (stateAfter exampleSize none earlyLock).prod.pc = .map ∧
    (stateAfter exampleSize none earlyLock).fresh.size = exampleSize ∧
    (stateAfter exampleSize none earlyLock).fresh.constructed = false ∧
    (stateAfter exampleSize none earlyLock).constructions = 0 ∧
    (stateAfter exampleSize none earlyLock).cons.shm = some .fresh ∧
    (stateAfter exampleSize none earlyLock).cons.pc = .announce ∧
    (stateAfter exampleSize none earlyLock).fresh.buf.mutex = some .consumer ∧
    (stateAfter exampleSize none earlyLock).earlyAccess = true ∧
    ¬ (∀ s, Reachable exampleSize none s → s.cons.pc.locked = true →
        s.cseg.constructed = true) := by
  refine ⟨rfl, rfl, ⟨earlyLock, rfl⟩, rfl, rfl, rfl, rfl, rfl, rfl, rfl, rfl, ?_⟩
  intro hall
  exact absurd (hall _ ⟨earlyLock, rfl⟩ rfl) (by decide)

/-- C5 (initialise before access), amended.  Whatever "SyncShm" names at the
start, in every interleaving: the constructor of `SharedBuffer` has run at
most once, and it has run exactly when the producer is past the placement new
of line 28; it runs only in that statement of the producer, which is reached
only from the successful mapping of line 26; every statement of the producer
that uses the buffer comes after the construction, on a sized segment; and
when the construction is complete in a state in which the consumer has not
yet opened a segment, then in every continuation of the run the lock of line
58 is never taken on a segment that is not yet sized or constructed, and
every statement of either role that uses the buffer works on the constructed
and sized segment of the producer. -/
theorem initialise_before_access (sz : Nat) (ns : Option Segment) (s : State)
    (h : Reachable sz ns s) :
    s.constructions ≤ 1 ∧
    (s.constructions = 1 ↔ s.prod.pc.built = true) ∧
    s.fresh.constructed = s.prod.pc.built ∧
    (∀ a t, step sz s a = some t →
      t.constructions = s.constructions +
        (if a.role = .producer ∧ s.prod.pc = .construct then 1 else 0) ∧
      (t.prod.pc = .construct → s.prod.pc ≠ .construct →
        a = .producer true ∧ s.prod.pc = .map)) ∧
    (∀ ok, usesBuffer s (.producer ok) = true →
      s.fresh.constructed = true ∧ s.fresh.size = sz) ∧
    (s.cons.shm = none → s.fresh.constructed = true →
      ∀ acts t, run sz s acts = some t →
        t.earlyAccess = false ∧
        (∀ ok, usesBuffer t (.producer ok) = true →
          t.fresh.constructed = true ∧ t.fresh.size = sz) ∧
        (∀ ok late, usesBuffer t (.consumer ok late) = true →
          t.cons.shm = some .fresh ∧ t.cseg.constructed = true ∧ t.cseg.size = sz)) := by
  have hi := inv_reachable sz ns s h
  have hk := hi.prod.constructions_eq
  refine ⟨?_, ?_, hi.prod.built_eq, ?_, ?_, ?_⟩
  · rw [hk]
    split <;> simp
  · rw [hk]
    cases s.prod.pc.built <;> simp
  · intro a t hs
    cases a with
    | producer ok =>
      have hs1 : producer sz ok s = some t := hs
      obtain ⟨h1, h2⟩ := producer_constructions sz ok s t hs1
      refine ⟨by simpa [Action.role] using h1, ?_⟩
      intro ht _
      obtain ⟨h3, h4⟩ := h2 ht
      rw [h4]
      exact ⟨rfl, h3⟩
    | consumer ok late =>
      have hs1 : consumer sz ok late s = some t := hs
      obtain ⟨f1, f2, -⟩ := consumer_frame sz ok late s t hs1
      refine ⟨by simpa [Action.role] using f2, ?_⟩
      intro ht hne
      rw [f1] at ht
      exact absurd ht hne
  · intro ok hu
    have hb : s.prod.pc.built = true := by
      apply critical_built
      simpa [usesBuffer] using hu
    exact ⟨by rw [hi.prod.built_eq]; exact hb, hi.prod.size_eq (built_sized _ hb)⟩
  · intro hsh hc acts t hr
    have hb : s.prod.pc.built = true := by
      rw [← hi.prod.built_eq]
      exact hc
    have he : s.earlyAccess = false := by
      cases hea : s.earlyAccess with
      | false => rfl
      | true => exact absurd hsh (hi.cross.early hea)
    obtain ⟨hit, hat, hbt, het⟩ :=
      late_run sz acts s t hi (absent_unopened sz s hi hb hsh) hb he hr
    refine ⟨het, fun _ _ => ⟨by rw [hit.prod.built_eq]; exact hbt,
      hit.prod.size_eq (built_sized _ hbt)⟩, ?_⟩
    intro ok late hu
    have hf : t.cons.shm = some .fresh := by
      cases hsh : t.cons.shm with
      | none =>
        exfalso
        have := (hit.cons.no_shm hsh).1
        simp only [usesBuffer] at hu
        rcases this with e | e | e | e <;> rw [e] at hu <;> simp [CPc.lockPhase] at hu
      | some r =>
        cases r with
        | stale => exact absurd hsh hat.shm_fresh
        | fresh => rfl
    refine ⟨hf, ?_, ?_⟩
    · rw [cseg_fresh t hf, hit.prod.built_eq]
      exact hbt
    · rw [cseg_fresh t hf]
      exact hit.prod.size_eq (built_sized _ hbt)

/-- The consumer starts after the placement new and takes the mutex of a
constructed buffer. -/
theorem initialise_before_access_witness :
    Reachable exampleSize none (stateAfter exampleSize none (producerSteps 5)) ∧
    (stateAfter exampleSize none (producerSteps 5)).constructions = 1 ∧
    (stateAfter exampleSize none (producerSteps 5)).cons.shm = none ∧
    (stateAfter exampleSize none (producerSteps 5)).fresh.constructed = true ∧
    run exampleSize (stateAfter exampleSize none (producerSteps 5)) (consumerSteps 6) =
      some (stateAfter exampleSize none (producerSteps 5 ++ consumerSteps 6)) ∧
    (stateAfter exampleSize none (producerSteps 5 ++ consumerSteps 6)).cons.pc = .announce ∧
    (stateAfter exampleSize none (producerSteps 5 ++ consumerSteps 6)).earlyAccess = false :=
  ⟨⟨producerSteps 5, rfl⟩, rfl, rfl, rfl, rfl, rfl,
    ((initialise_before_access exampleSize none (stateAfter exampleSize none (producerSteps 5))
      ⟨producerSteps 5, rfl⟩).2.2.2.2.2 rfl rfl (consumerSteps 6) _ rfl).1⟩

theorem lockPhase_facts (c : Consumer) (h : ConsInv c) (hp : c.pc.lockPhase = true) :
    c.shm ≠ none ∧ c.mapFailed = false ∧ c.pc ≠ .handler := by
  refine ⟨?_, ?_, ?_⟩
  · intro hn
    have := (h.no_shm hn).1
    rcases this with e | e | e | e <;> rw [e] at hp <;> simp [CPc.lockPhase] at hp
  · cases hm : c.mapFailed with
    | false => rfl
    | true =>
      have := (h.map_failed hm).1
      rcases this with e | e | e | e | e <;> rw [e] at hp <;> simp [CPc.lockPhase] at hp
  · intro e
    rw [e] at hp
    simp [CPc.lockPhase] at hp

theorem retry_start (sz : Nat) (ns : Option Segment) :
    run sz (init ns) (producerSteps 1 ++ consumerSteps 2) = some (retryState ns 0) := by
  rfl

theorem retry_attempt (sz : Nat) (ns : Option Segment) (n : Nat) :
    run sz (retryState ns n) failedAttempt = some (retryState ns (n + 1)) := by
  simp only [run, step, failedAttempt, consumerSteps, retryState, consumer, catchClause, init,
    List.replicate, Bool.false_eq_true, if_false, Option.some.injEq, Nat.add_zero]
  have h1 : 500 * n + 500 = 500 * (n + 1) := by omega
  have h2 : List.replicate n Line.consumerException ++ [Line.consumerException] =
      Line.consumerException :: List.replicate n Line.consumerException := by
    rw [← List.replicate_succ', List.replicate_succ]
  rw [h1, List.cons_append, h2]

theorem retry_loop (sz : Nat) (ns : Option Segment) (n : Nat) :
    run sz (retryState ns 0) (List.replicate n failedAttempt).flatten = some (retryState ns n) := by
  induction n with
  | zero => rfl
  | succ k ih =>
    rw [List.replicate_succ', List.flatten_append, run_append, ih]
    simp only [List.flatten_cons, List.flatten_nil, List.append_nil, Option.some_bind]
    exact retry_attempt sz ns k

theorem retry_connect (sz : Nat) (ns : Option Segment) (n : Nat) :
    ∃ s, run sz (retryState ns n) (producerSteps 4 ++ consumerSteps 3) = some s ∧
      s.cons.pc = .lock ∧ s.cons.notFound = n ∧ s.cons.overslept = 0 ∧
      s.createdAt = some (500 * n) := by
  exact ⟨_, rfl, rfl, rfl, rfl, rfl⟩

theorem retry_run (sz : Nat) (ns : Option Segment) (n : Nat) :
    ∃ s, run sz (init ns) (retrySchedule n) = some s ∧ s.cons.pc = .lock ∧
      s.cons.notFound = n ∧ s.cons.overslept = 0 ∧ s.createdAt = some (500 * n) := by
  obtain ⟨s, h1, h2⟩ := retry_connect sz ns n
  refine ⟨s, ?_, h2⟩
  unfold retrySchedule
  rw [List.append_assoc, List.append_assoc, run_append, retry_start, Option.some_bind,
    run_append, retry_loop, Option.some_bind]
  exact h1

theorem consumer_map_ok (sz : Nat) (late : Nat) (s : State) (hp : s.cons.pc = .map) :
    ∃ t, consumer sz true late s = some t ∧ t.cons.pc = .lock ∧
      t.cons.opens = s.cons.opens ∧ t.cons.sleeps = s.cons.sleeps ∧
      t.cons.notFound = s.cons.notFound := by
  obtain ⟨name, stale, fresh, prod, cons, k, ea, out, cat⟩ := s
  obtain ⟨cpc, connected, shm, opens, notFound, sleeps, clock, overslept, openedAt, mapFailed,
    waits, flagAtLock, received⟩ := cons
  dsimp only at hp
  subst hp
  exact ⟨_, rfl, rfl, rfl, rfl, rfl⟩

/-- C6 as stated fails in its last clause: `sleep_for` blocks for at least
500 ms, not for exactly 500 ms.  The first attempt of the consumer finds no
segment and its sleep lasts 3000 ms; the producer creates the segment 3000 ms
after the consumer started, and the second attempt succeeds: one failed
attempt, not five. -/
theorem open_retry_counterexample :
    Reachable exampleSize none (stateAfter exampleSize none slowSleep) ∧
    (stateAfter exampleSize none slowSleep).createdAt = some 3000 ∧
    (stateAfter exampleSize none slowSleep).cons.openedAt = some 3000 ∧
    (stateAfter exampleSize none slowSleep).cons.shm = some .fresh ∧
    (stateAfter exampleSize none slowSleep).cons.pc = .lock ∧
    (stateAfter exampleSize none slowSleep).cons.opens = 2 ∧
    (stateAfter exampleSize none slowSleep).cons.sleeps = 1 ∧
    (stateAfter exampleSize none slowSleep).cons.notFound = 1 ∧
    ¬ (∀ s k, Reachable exampleSize none s → s.cons.pc.lockPhase = true →
        s.createdAt = some k → 3000 ≤ k → 5 ≤ s.cons.notFound) := by
  refine ⟨⟨slowSleep, rfl⟩, rfl, rfl, rfl, rfl, rfl, rfl, rfl, ?_⟩
  intro hall
  have := hall _ 3000 ⟨slowSleep, rfl⟩ rfl rfl (by decide)
  exact absurd this (by decide)

/-- C6 (open retry), amended.  For every `n`: there is a run in which the
first `n` attempts to open "SyncShm" find no segment and attempt `n + 1`
succeeds, as does the mapping; a mapping that succeeds takes the consumer to
the lock of line 58 with the counts unchanged; and in every interleaving in
which the consumer has reached its lock / wait phase after `n` such
failures, it has made exactly `n + 1` open attempts and slept the backoff exactly `n` times,
no mapping has failed and no exception has left `consumer()`, and the counts
are the same when `consumer()` has returned; the successful
attempt was made 500 `n` ms plus the time by which the `n` sleeps overshot
after the consumer started, and not before the segment it opened was
created.  So when that segment was created 3000 ms or more after the
consumer started and no sleep has overshot, at least 5 attempts have
failed. -/
theorem open_retry (sz : Nat) (ns : Option Segment) (n : Nat) :
    (∃ s, run sz (init ns) (retrySchedule n) = some s ∧ s.cons.pc = .lock ∧
      s.cons.notFound = n ∧ s.cons.overslept = 0 ∧ s.createdAt = some (500 * n)) ∧
    (∀ s, Reachable sz ns s → s.cons.pc.lockPhase = true → s.cons.notFound = n →
      s.cons.opens = n + 1 ∧ s.cons.sleeps = n ∧ s.cons.mapFailed = false ∧
      s.cons.pc ≠ .thrown ∧
      s.cons.openedAt = some (500 * n + s.cons.overslept) ∧
      (∀ k, s.cons.shm = some .fresh → s.createdAt = some k →
        k ≤ 500 * n + s.cons.overslept ∧
        (s.cons.overslept = 0 → 3000 ≤ k → 5 ≤ n))) ∧
    (∀ s, Reachable sz ns s → s.cons.pc = .done → s.cons.mapFailed = false →
      s.cons.notFound = n → s.cons.opens = n + 1 ∧ s.cons.sleeps = n) ∧
    (∀ s, Reachable sz ns s → s.cons.pc = .map → ∀ late,
      ∃ t, consumer sz true late s = some t ∧ t.cons.pc = .lock ∧
        t.cons.opens = s.cons.opens ∧ t.cons.sleeps = s.cons.sleeps ∧
        t.cons.notFound = s.cons.notFound) := by
  refine ⟨retry_run sz ns n, ?_, ?_, fun s _ hp late => consumer_map_ok sz late s hp⟩
  rotate_left
  · intro s h hp hm hn
    have hi := (inv_reachable sz ns s h).cons
    have h1 : s.cons.shm ≠ none := by
      intro hnone
      have := (hi.no_shm hnone).1
      rw [hp] at this
      simp at this
    have ho := hi.opens_eq
    have hs := hi.sleeps_eq
    simp only [h1, hm, hp, if_false, Bool.false_eq_true] at ho hs
    subst hn
    simp at hs
    exact ⟨ho, hs⟩
  intro s h hp hn
  have hall := inv_reachable sz ns s h
  have hi := hall.cons
  obtain ⟨h1, h2, h3⟩ := lockPhase_facts s.cons hi hp
  have ho := hi.opens_eq
  have hs := hi.sleeps_eq
  have hc := hi.clock_eq
  have ha := hi.openedAt_eq.2 h1 h2
  simp only [h1, h2, h3, if_false, Bool.false_eq_true] at ho hs
  subst hn
  have hsl : s.cons.sleeps = s.cons.notFound := by omega
  rw [hsl] at hc
  rw [hc] at ha
  refine ⟨ho, hsl, h2, hi.not_thrown, ha, ?_⟩
  intro k hf hk
  have hle := hall.cross.opened_ge hf k _ hk ha
  refine ⟨hle, ?_⟩
  intro hz h3000
  omega

/-- The segment appears after six failed attempts, 3000 ms after the
consumer started, no sleep having lasted longer than 500 ms. -/
theorem open_retry_witness :
    Reachable exampleSize none (stateAfter exampleSize none (retrySchedule 6)) ∧
    (stateAfter exampleSize none (retrySchedule 6)).cons.pc = .lock ∧
    (stateAfter exampleSize none (retrySchedule 6)).cons.notFound = 6 ∧
    (stateAfter exampleSize none (retrySchedule 6)).createdAt = some 3000 ∧
    (stateAfter exampleSize none (retrySchedule 6)).cons.overslept = 0 ∧
    (stateAfter exampleSize none (retrySchedule 6)).cons.opens = 6 + 1 ∧
    (stateAfter exampleSize none (retrySchedule 6)).cons.sleeps = 6 ∧
    5 ≤ 6 :=
  ⟨⟨retrySchedule 6, rfl⟩, rfl, rfl, rfl, rfl,
    ((open_retry exampleSize none 6).2.1 (stateAfter exampleSize none (retrySchedule 6))
      ⟨retrySchedule 6, rfl⟩ rfl rfl).1,
    ((open_retry exampleSize none 6).2.1 (stateAfter exampleSize none (retrySchedule 6))
      ⟨retrySchedule 6, rfl⟩ rfl rfl).2.1,
    (((open_retry exampleSize none 6).2.1 (stateAfter exampleSize none (retrySchedule 6))
      ⟨retrySchedule 6, rfl⟩ rfl rfl).2.2.2.2.2 3000 rfl rfl).2 rfl (by decide)⟩

theorem consumer_map_fails (sz : Nat) (late : Nat) (s : State) (hp : s.cons.pc = .map) :
    ∃ t, consumer sz false late s = some t ∧ t.cons.pc = .handler ∧ t.cons.mapFailed = true ∧
      t.cons.opens = s.cons.opens ∧ t.cons.received = s.cons.received := by
  obtain ⟨name, stale, fresh, prod, cons, k, ea, out, cat⟩ := s
  obtain ⟨cpc, connected, shm, opens, notFound, sleeps, clock, overslept, openedAt, mapFailed,
    waits, flagAtLock, received⟩ := cons
  dsimp only at hp
  subst hp
  exact ⟨_, rfl, rfl, rfl, rfl, rfl⟩

/-- C7 as stated fails: the producer finishes, the consumer opens the
segment and mapping it fails.  The exception is caught by the handler of
line 66; as `connected` is already true the loop ends, and the consumer
prints its finishing line and removes the segment without having read the
message.  No exception leaves `consumer()`. -/
theorem map_failed_fatal_counterexample :
    Reachable exampleSize none (stateAfter exampleSize none mapFailure) ∧
    (stateAfter exampleSize none mapFailure).cons.mapFailed = true ∧
    (stateAfter exampleSize none mapFailure).cons.pc = .done ∧
    (stateAfter exampleSize none mapFailure).cons.received = none ∧
    (stateAfter exampleSize none mapFailure).name = none ∧
    Line.consumerFinishing ∈ (stateAfter exampleSize none mapFailure).out ∧
    ¬ (∀ s, Reachable exampleSize none s → s.cons.mapFailed = true → s.cons.pc = .thrown) ∧
    ¬ (∀ s, Reachable exampleSize none s → s.cons.pc = .done → s.cons.received ≠ none) := by
  refine ⟨⟨mapFailure, rfl⟩, rfl, rfl, rfl, rfl, by decide, ?_, ?_⟩
  · intro hall
    exact absurd (hall _ ⟨mapFailure, rfl⟩ rfl) (by decide)
  · intro hall
    exact absurd (hall _ ⟨mapFailure, rfl⟩ rfl) (by decide)

/-- C7 (mapping failure), amended.  In every interleaving: when the consumer
stands at the mapping of line 54 and the mapping fails, control goes to the
handler of line 66 and no open attempt is added; and in every state after a
failed mapping no exception has left `consumer()`, the consumer is in the
handler or past it (loop test, finishing line, remove, end) and never again
at line 50, `connected` is true, the one successful open is still the last
attempt, and the backoff has been slept once for the failure on top of once
for every attempt that found no segment. -/
theorem map_failure_absorbed (sz : Nat) (ns : Option Segment) (s : State)
    (h : Reachable sz ns s) :
    (s.cons.pc = .map → ∀ late, ∃ t, consumer sz false late s = some t ∧
      t.cons.pc = .handler ∧ t.cons.mapFailed = true ∧ t.cons.opens = s.cons.opens) ∧
    (s.cons.mapFailed = true →
      s.cons.pc ≠ .thrown ∧ s.cons.pc ≠ .openShm ∧
      (s.cons.pc = .handler ∨ s.cons.pc = .loopTest ∨ s.cons.pc = .finish ∨
        s.cons.pc = .remove ∨ s.cons.pc = .done) ∧
      s.cons.connected = true ∧
      s.cons.opens = s.cons.notFound + 1 ∧
      s.cons.sleeps + (if s.cons.pc = .handler then 1 else 0) = s.cons.notFound + 1) := by
  have hi := (inv_reachable sz ns s h).cons
  refine ⟨?_, ?_⟩
  · intro hp late
    obtain ⟨t, h1, h2, h3, h4, -⟩ := consumer_map_fails sz late s hp
    exact ⟨t, h1, h2, h3, h4⟩
  · intro hm
    have hpc := (hi.map_failed hm).1
    have hshm : s.cons.shm ≠ none := by
      intro hn
      have := (hi.no_shm hn).2.2
      rw [hm] at this
      simp at this
    have hw := hi.with_shm hshm
    have ho := hi.opens_eq
    have hs := hi.sleeps_eq
    simp only [hshm, hm, if_true, if_false] at ho hs
    refine ⟨hi.not_thrown, hw.2.1, hpc, hw.2.2 ?_, ho, hs⟩
    rcases hpc with e | e | e | e | e <;> rw [e] <;> simp

/-- The run in which the mapping of the consumer fails. -/
theorem map_failure_absorbed_witness :
    Reachable exampleSize none (stateAfter exampleSize none mapFailure) ∧
    (stateAfter exampleSize none mapFailure).cons.mapFailed = true ∧
    (stateAfter exampleSize none mapFailure).cons.pc ≠ .thrown ∧
    (stateAfter exampleSize none mapFailure).cons.opens =
      (stateAfter exampleSize none mapFailure).cons.notFound + 1 :=
  ⟨⟨mapFailure, rfl⟩, rfl,
    ((map_failure_absorbed exampleSize none (stateAfter exampleSize none mapFailure)
      ⟨mapFailure, rfl⟩).2 rfl).1,
    ((map_failure_absorbed exampleSize none (stateAfter exampleSize none mapFailure)
      ⟨mapFailure, rfl⟩).2 rfl).2.2.2.2.1⟩

set_option maxRecDepth 8000 in
theorem producer_run_lock (sz : Nat) (ns : Option Segment) :
    run sz (init ns) (producerSteps 7) = some (copying sz ns 0) := by
  rfl

set_option maxRecDepth 8000 in
theorem producer_run_copy (sz : Nat) (ns : Option Segment) :
    run sz (copying sz ns 0) (producerSteps 7) = some (copying sz ns 7) ∧
    run sz (copying sz ns 7) (producerSteps 7) = some (copying sz ns 14) ∧
    run sz (copying sz ns 14) (producerSteps 6) = some (copying sz ns 20) := by
  exact ⟨rfl, rfl, rfl⟩

set_option maxRecDepth 8000 in
theorem producer_run_end (sz : Nat) (ns : Option Segment) :
    run sz (copying sz ns 20) (producerSteps 5) = some (produced sz ns) := by
  rfl

theorem producer_run (sz : Nat) (ns : Option Segment) :
    run sz (init ns) producerAlone = some (produced sz ns) := by
  have hsplit : producerAlone = producerSteps 7 ++ (producerSteps 7 ++ (producerSteps 7 ++
      (producerSteps 6 ++ producerSteps 5))) := by
    rfl
  obtain ⟨h1, h2, h3⟩ := producer_run_copy sz ns
  rw [hsplit, run_append, producer_run_lock, Option.some_bind, run_append, h1,
    Option.some_bind, run_append, h2, Option.some_bind, run_append, h3, Option.some_bind,
    producer_run_end]

theorem producer_keeps_name (sz : Nat) (ok : Bool) (s t : State)
    (hs : producer sz ok s = some t) (hc : s.prod.pc.created = true) : t.name = s.name := by
  rcases producer_name sz ok s t hs with h | ⟨h, -⟩ | ⟨h, -⟩
  · exact h
  · rw [h] at hc
    simp [PPc.created] at hc
  · rw [h] at hc
    simp [PPc.created] at hc

theorem producer_ok (sz : Nat) (ok : Bool) (s : State) (h : s.prod.pc ≠ .map) :
    producer sz ok s = producer sz true s := by
  obtain ⟨name, stale, fresh, ⟨ppc, i⟩, cons, k, ea, out, cat⟩ := s
  cases ppc <;> first | rfl | exact absurd rfl h

theorem producer_map (sz : Nat) (s t : State) (hp : s.prod.pc = .map)
    (hs : producer sz false s = some t) : t.prod.pc = .thrown := by
  obtain ⟨name, stale, fresh, ⟨ppc, i⟩, cons, k, ea, out, cat⟩ := s
  dsimp only at hp
  subst hp
  simp only [producer, Bool.false_eq_true, if_false, Option.some.injEq] at hs
  subst hs
  rfl

theorem producerOnly_cons (a : Action) (rest : List Action) (h : producerOnly (a :: rest) = true) :
    (∃ ok, a = .producer ok) ∧ producerOnly rest = true := by
  simp only [producerOnly, List.all_cons, Bool.and_eq_true, decide_eq_true_eq] at h
  refine ⟨?_, h.2⟩
  cases a with
  | producer ok => exact ⟨ok, rfl⟩
  | consumer ok late => simp [Action.role] at h

theorem producer_stuck (sz : Nat) (acts : List Action) (s t : State)
    (ho : producerOnly acts = true) (hp : s.prod.pc = .thrown ∨ s.prod.pc = .done)
    (hr : run sz s acts = some t) : t = s ∧ acts = [] := by
  cases acts with
  | nil =>
    simp only [run, Option.some.injEq] at hr
    exact ⟨hr.symm, rfl⟩
  | cons a rest =>
    exfalso
    obtain ⟨⟨ok, ha⟩, -⟩ := producerOnly_cons a rest ho
    subst ha
    have hn : step sz s (.producer ok) = none := by
      simp only [step, producer]
      rcases hp with hp | hp <;> rw [hp]
    simp [run, hn] at hr

theorem producerSteps_succ (n : Nat) :
    producerSteps (n + 1) = Action.producer true :: producerSteps n := by
  rfl

theorem producerOnly_steps (n : Nat) : producerOnly (producerSteps n) = true := by
  induction n with
  | zero => rfl
  | succ k ih =>
    rw [producerSteps_succ]
    simp only [producerOnly, List.all_cons, Bool.and_eq_true, decide_eq_true_eq]
    exact ⟨rfl, ih⟩

theorem producer_only_run (sz : Nat) (acts : List Action) (s t : State)
    (ho : producerOnly acts = true) (hr : run sz s acts = some t)
    (ht : t.prod.pc ≠ .thrown ∨ Action.producer false ∉ acts) :
    run sz s (producerSteps acts.length) = some t := by
  induction acts generalizing s with
  | nil => exact hr
  | cons a rest ih =>
    obtain ⟨⟨ok, ha⟩, ho1⟩ := producerOnly_cons a rest ho
    subst ha
    simp only [run] at hr
    cases hst : step sz s (.producer ok) with
    | none => simp [hst] at hr
    | some s1 =>
      simp only [hst] at hr
      have hs1 : producer sz ok s = some s1 := hst
      have ht1 : t.prod.pc ≠ .thrown ∨ Action.producer false ∉ rest := by
        rcases ht with ht | ht
        · exact Or.inl ht
        · exact Or.inr (fun hm => ht (List.mem_cons_of_mem _ hm))
      have htrue : producer sz true s = some s1 := by
        by_cases hm : s.prod.pc = .map
        · cases ok with
          | true => exact hs1
          | false =>
            exfalso
            rcases ht with ht | ht
            · have hthrown := producer_map sz s s1 hm hs1
              have := (producer_stuck sz rest s1 t ho1 (Or.inl hthrown) hr).1
              rw [this] at ht
              exact ht hthrown
            · exact ht (List.mem_cons_self _ _)
        · rw [← producer_ok sz ok s hm]
          exact hs1
      rw [List.length_cons, producerSteps_succ]
      simp only [run, step, htrue]
      exact ih s1 ho1 hr ht1

theorem producerSteps_add (m n : Nat) :
    producerSteps (m + n) = producerSteps m ++ producerSteps n := by
  unfold producerSteps
  rw [List.replicate_add]

theorem producer_remainder (sz : Nat) (ns : Option Segment) (n : Nat) (t : State)
    (hr : run sz (init ns) (producerSteps n) = some t) :
    n ≤ 32 ∧ run sz t (producerSteps (32 - n)) = some (produced sz ns) := by
  have hfull : run sz (init ns) (producerSteps 32) = some (produced sz ns) := producer_run sz ns
  by_cases hn : n ≤ 32
  · refine ⟨hn, ?_⟩
    have hsplit : producerSteps 32 = producerSteps n ++ producerSteps (32 - n) := by
      have hadd := producerSteps_add n (32 - n)
      have e : n + (32 - n) = 32 := by omega
      rw [e] at hadd
      exact hadd
    rw [hsplit, run_append, hr, Option.some_bind] at hfull
    exact hfull
  · exfalso
    have hsplit : producerSteps n = producerSteps 32 ++ producerSteps (n - 32) := by
      have hadd := producerSteps_add 32 (n - 32)
      have e : 32 + (n - 32) = n := by omega
      rw [e] at hadd
      exact hadd
    rw [hsplit, run_append, hfull, Option.some_bind] at hr
    have := (producer_stuck sz _ _ t (producerOnly_steps _) (Or.inr rfl) hr).2
    have hlen : (producerSteps (n - 32)).length = 0 := by rw [this]; rfl
    simp only [producerSteps, List.length_replicate] at hlen
    omega

/-- C8 as stated fails: the mapping of line 26 can fail, and `producer()` has
no handler.  From a namespace in which "SyncShm" is absent the producer,
running alone, removes, creates and sizes the segment; the mapping throws and
the exception leaves `producer()`: the name is bound, but the buffer is
neither constructed nor filled, and `has_data` is false. -/
theorem producer_postcondition_counterexample :
    producerOnly producerMapFails = true ∧
    Reachable exampleSize none (stateAfter exampleSize none producerMapFails) ∧
    (stateAfter exampleSize none producerMapFails).prod.pc = .thrown ∧
    (stateAfter exampleSize none producerMapFails).name = some .fresh ∧
    (stateAfter exampleSize none producerMapFails).fresh.constructed = false ∧
    (stateAfter exampleSize none producerMapFails).fresh.buf.has_data = false ∧
    cstr (stateAfter exampleSize none producerMapFails).fresh.buf.message = [] ∧
    (∀ ok, producer exampleSize ok (stateAfter exampleSize none producerMapFails) = none) ∧
    ¬ (∀ acts t, producerOnly acts = true → run exampleSize (init none) acts = some t →
        (∀ ok, producer exampleSize ok t = none) → t.fresh.buf.has_data = true) := by
  refine ⟨rfl, ⟨producerMapFails, rfl⟩, rfl, rfl, rfl, rfl, ?_, fun _ => rfl, ?_⟩
  · rfl
  · intro hall
    have := hall producerMapFails _ rfl rfl (fun _ => rfl)
    exact absurd this (by decide)

/-- C8 (producer postcondition), amended.  Whatever "SyncShm" names at the
start, nothing or a stale segment of any size and contents, `producer()`
running alone with a successful mapping returns without an exception after
32 steps; at the end "SyncShm" names the segment it created, which has the
size of `SharedBuffer` and holds a constructed buffer with `has_data` true,
the message "Hello from producer!" with its NUL and zero bytes behind it, an
unlocked mutex and no waiter, so nothing of a stale segment is left in it.
In every run of the producer alone an exception leaves `producer()` only when
the mapping of line 26 has failed; a run without such an exception is part of
the run just described and can be continued to its end, and when
`producer()` has returned the state is the one described.  In every
interleaving, no statement of the producer after its create of line 24
changes what the name is bound to: the producer never removes the segment it
created. -/
theorem producer_postcondition (sz : Nat) (ns : Option Segment) :
    (∃ s, run sz (init ns) producerAlone = some s ∧
      s.prod.pc = .done ∧ (∀ ok, producer sz ok s = none) ∧
      s.name = some .fresh ∧
      s.fresh = { size := sz, constructed := true,
                  buf := { mutex := none, data_ready := [], has_data := true,
                           message := payload ++ 0 :: List.replicate 235 0 } } ∧
      cstr s.fresh.buf.message = payload ∧
      s.earlyAccess = false ∧
      (∀ acts t, producerOnly acts = true → run sz (init ns) acts = some t →
        (t.prod.pc = .thrown → Action.producer false ∈ acts) ∧
        (t.prod.pc ≠ .thrown →
          acts.length ≤ 32 ∧ run sz t (producerSteps (32 - acts.length)) = some s) ∧
        (t.prod.pc = .done → t = s))) ∧
    (∀ u ok t, Reachable sz ns u → u.prod.pc.created = true →
      producer sz ok u = some t → t.name = u.name) := by
  refine ⟨⟨produced sz ns, producer_run sz ns, rfl, fun _ => rfl, rfl, rfl, cstr_complete, rfl,
    ?_⟩, fun u ok t _ hc hs => producer_keeps_name sz ok u t hs hc⟩
  intro acts t ho hr
  have hpre : t.prod.pc ≠ .thrown →
      acts.length ≤ 32 ∧ run sz t (producerSteps (32 - acts.length)) = some (produced sz ns) :=
    fun hne => producer_remainder sz ns acts.length t
      (producer_only_run sz acts (init ns) t ho hr (Or.inl hne))
  refine ⟨?_, hpre, ?_⟩
  · intro hthrown
    by_contra hnot
    obtain ⟨-, h2⟩ := producer_remainder sz ns acts.length t
      (producer_only_run sz acts (init ns) t ho hr (Or.inr hnot))
    have := (producer_stuck sz _ t _ (producerOnly_steps _) (Or.inl hthrown) h2).1
    rw [← this] at hthrown
    simp [produced] at hthrown
  · intro hd
    obtain ⟨-, h2⟩ := hpre (by rw [hd]; simp)
    exact ((producer_stuck sz _ t _ (producerOnly_steps _) (Or.inr hd) h2).1).symm

/-- The producer alone, from a namespace that holds a stale segment with a
locked mutex and the flag set. -/
theorem producer_postcondition_witness :
    producerOnly producerAlone = true ∧
    (stateAfter exampleSize (some staleSegment) producerAlone).prod.pc = .done ∧
    (stateAfter exampleSize (some staleSegment) producerAlone).name = some .fresh ∧
    (stateAfter exampleSize (some staleSegment) producerAlone).fresh.buf.has_data = true ∧
    (stateAfter exampleSize (some staleSegment) producerAlone).fresh.buf.mutex = none ∧
    (∃ s, run exampleSize (init (some staleSegment)) producerAlone = some s ∧
      stateAfter exampleSize (some staleSegment) producerAlone = s) :=
  ⟨rfl, rfl, rfl, rfl, rfl,
    (producer_postcondition exampleSize (some staleSegment)).1.elim
      (fun s hs => ⟨s, hs.1, (hs.2.2.2.2.2.2.2 producerAlone _ rfl rfl).2.2 rfl⟩)⟩

theorem done_run (sz : Nat) (acts : List Action) (s t : State) (h : Inv sz s)
    (hr : run sz s acts = some t) (hd : s.cons.pc = .done) : t.cons.pc = .done := by
  induction acts generalizing s with
  | nil =>
    simp only [run, Option.some.injEq] at hr
    subst hr
    exact hd
  | cons a rest ih =>
    simp only [run] at hr
    cases hst : step sz s a with
    | none => simp [hst] at hr
    | some s1 =>
      simp only [hst] at hr
      refine ih s1 (inv_step sz s s1 a h hst) hr ?_
      cases a with
      | producer ok =>
        have hs1 : producer sz ok s = some s1 := hst
        have hw : s.fresh.buf.data_ready = [] ∨ s.cons.pc = .waiting := by
          rcases h.cross.waiters with hw | hw
          · exact Or.inl hw
          · exact Or.inr hw.2.1
        rcases producer_cons sz ok s s1 hw hs1 with hc | ⟨hc, -⟩
        · rw [hc]
          exact hd
        · rw [hd] at hc
          simp at hc
      | consumer ok late =>
        have hs1 : consumer sz ok late s = some s1 := hst
        simp [consumer, hd] at hs1

/-- C9 (clean teardown).  When "SyncShm" names nothing at the start, in every
interleaving: once `consumer()` has returned, the name is unbound and the
producer is past its create of line 24, and the name stays unbound in every
continuation of the run; once both functions have returned, `main` returns 0
with "SyncShm" absent. -/
theorem clean_teardown (sz : Nat) (s : State) (h : Reachable sz none s)
    (hc : s.cons.pc = .done) :
    s.name = none ∧ s.prod.pc.created = true ∧
    (∀ acts t, run sz s acts = some t → t.name = none) ∧
    (s.prod.pc = .done → main s = some 0 ∧ s.name = none) := by
  have hi := inv_reachable sz none s h
  have ha := absent_reachable sz s h
  have hn := ha.done_removed hc
  refine ⟨hn, ?_, ?_, ?_⟩
  · have hshm : s.cons.shm = some .fresh := by
      cases hsh : s.cons.shm with
      | none =>
        have := (hi.cons.no_shm hsh).1
        rw [hc] at this
        simp at this
      | some r =>
        cases r with
        | stale => exact absurd hsh ha.shm_fresh
        | fresh => rfl
    cases hcr : s.prod.pc.created with
    | true => rfl
    | false => exact absurd hshm (hi.cross.not_created hcr).2
  · intro acts t hr
    exact (absent_run sz acts s t hi ha hr).done_removed (done_run sz acts s t hi hr hc)
  · intro hp
    exact ⟨by simp [main, hp, hc], hn⟩

/-- The full run: both functions have returned and the name is gone. -/
theorem clean_teardown_witness :
    Reachable exampleSize none (stateAfter exampleSize none fullRun) ∧
    (stateAfter exampleSize none fullRun).cons.pc = .done ∧
    (stateAfter exampleSize none fullRun).prod.pc = .done ∧
    (stateAfter exampleSize none fullRun).name = none ∧
    main (stateAfter exampleSize none fullRun) = some 0 :=
  ⟨⟨fullRun, rfl⟩, rfl, rfl,
    (clean_teardown exampleSize (stateAfter exampleSize none fullRun) ⟨fullRun, rfl⟩ rfl).1,
    ((clean_teardown exampleSize (stateAfter exampleSize none fullRun)
      ⟨fullRun, rfl⟩ rfl).2.2.2 rfl).1⟩

end SyncShm
